import Mathlib

/-!
# Verification of the Nexter MCP block engine

A shallow embedding, in Lean 4, of the block-identifier lifecycle, block-tree
validator, auto-fix engine, formatter, staged schema merging and `$ref`
resolution of the `nexter-mcp-server` repository, together with theorems
settling the specification claims about them.

Sources embedded:
* `src/utils/input-validator.ts` — `validateBlock`, `validateBlocks`,
  `validateAttributeType`, `autoFixBlock`, `validateAndFix`,
  `validateBlockAgainstSchema`, `validateBlocksWithSchemas`,
  `isValidBlockName`, `isValidBlockId`, `getSuggestedBlockNames`.
* `dist/utils/block-formatter.js` — `generateBlockId`, `generateInnerHTML`,
  `formatBlock`, `formatBlocksForWordPress`.
* `src/services/schema-loader.ts` — `loadStagedSchema` (level merging),
  `resolve$ref` (depth-guarded reference resolution).
* `wordpress-plugin/nexter-mcp-api/includes/class-rest-api.php` —
  the per-identifier finalization step of `ensure_blocks_have_post_id`.

Modelling conventions.  JavaScript/PHP dynamic values are embedded as the
JSON-like type `AVal`; `undefined` is represented by `Option.none` at access
sites.  JavaScript object literals become association lists whose key order is
the literal's; spread `{...a, ...b}` is `jsSpread`.  JavaScript string
coercion of composite values inside template literals is approximated by
`AVal.disp` (arrays are joined with `","`, plain objects print as
`"[object Object]"`); the claims below only evaluate it on strings and
numbers, where it is exact.  Warnings, which the source builds as strings
from a fixed set of `push` sites, are embedded as the tagged type `Warn`
carrying each site's data; errors keep their `error_code` and their
`details.field` path as a real `String` because the claims are about the
exact path strings.  Randomness (`randomBytes`, `Math.random`) is modelled
by an explicit generator argument `gen : Nat → String` with a counter.
In-place mutation of the input tree (the formatter assigns
`block.attrs.block_id`) is modelled by returning the post-call tree
alongside the result; validators are embedded in the same style so that
their non-mutation is a provable statement rather than a convention.
-/

/-! ### Part 1 — the embedding: definitions -/

/-- A JSON-like dynamic value (JS values reachable in the embedded code).
`undefined` is not a value; absent fields are `Option.none` at access sites. -/
inductive AVal where
  | vnull
  | vbool (b : Bool)
  | vnum (n : Int)
  | vstr (s : String)
  | varr (xs : List AVal)
  | vobj (fs : List (String × AVal))

/-- JS truthiness of a value (`NaN` is not modelled; `Int` stands for the
numbers appearing in block trees). -/
def truthy : AVal → Bool
  | .vnull => false
  | .vbool b => b
  | .vnum n => n != 0
  | .vstr s => s != ""
  | .varr _ => true
  | .vobj _ => true

/-- JS truthiness of a possibly-`undefined` value. -/
def truthyOpt : Option AVal → Bool
  | none => false
  | some v => truthy v

/-- `typeof` in JS (arrays and `null` are `"object"`). -/
def jsTypeof : AVal → String
  | .vnull => "object"
  | .vbool _ => "boolean"
  | .vnum _ => "number"
  | .vstr _ => "string"
  | .varr _ => "object"
  | .vobj _ => "object"

/-- `Array.isArray`. -/
def isArr : AVal → Bool
  | .varr _ => true
  | _ => false

/-- First-match association-list lookup: JS property read `o[k]`
(`none` = `undefined`). -/
def olook (fs : List (String × AVal)) (k : String) : Option AVal :=
  (fs.find? (fun p => p.1 == k)).map (fun p => p.2)

/-- Property read through a possibly-non-object value: `v?.k` and `v.k`
where `v` is not necessarily an object (non-objects read `undefined`;
array element/length properties are not reachable in the embedded code). -/
def olookA : AVal → String → Option AVal
  | .vobj fs, k => olook fs k
  | _, _ => none

/-- JS property assignment `o[k] = v` on an object: updates the existing
entry in place (keeping its position) or appends a new one. -/
def oset (fs : List (String × AVal)) (k : String) (v : AVal) : List (String × AVal) :=
  if fs.any (fun p => p.1 == k) then
    fs.map (fun p => if p.1 == k then (p.1, v) else p)
  else
    fs ++ [(k, v)]

/-- Object spread `{...a, ...b}`: keys of `a` in order with `b`'s value on
collision, then the keys of `b` not present in `a`, in order. -/
def jsSpread (a b : List (String × AVal)) : List (String × AVal) :=
  a.map (fun p => (p.1, (olook b p.1).getD p.2)) ++
    b.filter (fun p => (olook a p.1).isNone)

/-- The object fields of a value, `[]` for non-objects (spreading a
non-object contributes no string-keyed fields; string index spreading
is not reachable on the claims' inputs). -/
def objFields : AVal → List (String × AVal)
  | .vobj fs => fs
  | _ => []

mutual

/-- Structural equality used for JS `===`/`includes`/`indexOf` on the
primitive values (strings, numbers, booleans, `null`) that block
identifiers and enum entries are; on arrays/objects JS compares by
reference, which the embedded code only ever applies to primitives. -/
def avalBeq : AVal → AVal → Bool
  | .vnull, .vnull => true
  | .vbool a, .vbool b => a == b
  | .vnum a, .vnum b => a == b
  | .vstr a, .vstr b => a == b
  | .varr a, .varr b => avalBeqL a b
  | .vobj a, .vobj b => avalBeqO a b
  | _, _ => false

def avalBeqL : List AVal → List AVal → Bool
  | [], [] => true
  | a :: as', b :: bs' => avalBeq a b && avalBeqL as' bs'
  | _, _ => false

def avalBeqO : List (String × AVal) → List (String × AVal) → Bool
  | [], [] => true
  | (k, a) :: as', (l, b) :: bs' => k == l && avalBeq a b && avalBeqO as' bs'
  | _, _ => false

end

mutual

/-- JS string coercion (template literals): exact on strings, integers and
booleans; arrays join with `","` and plain objects print
`"[object Object]"` (approximate for `null` inside arrays). -/
def AVal.disp : AVal → String
  | .vnull => "null"
  | .vbool true => "true"
  | .vbool false => "false"
  | .vnum n => toString n
  | .vstr s => s
  | .varr xs => String.intercalate "," (dispL xs)
  | .vobj _ => "[object Object]"

def dispL : List AVal → List String
  | [] => []
  | x :: xs => x.disp :: dispL xs

end

/-! ## Identifier lifecycle

`isValidBlockId` from `src/utils/input-validator.ts` (regexes
`^[a-f0-9]{4}$` and `^[a-f0-9]{4}_\d+$`), the host-side finalization step of
`ensure_blocks_have_post_id` (class-rest-api.php, the `block_id` branch), and
the client-side suffixing step of `formatBlock`
(dist/utils/block-formatter.js). -/
/-- A lowercase-hex character, the character class `[a-f0-9]`. -/
def isHexChar (c : Char) : Bool :=
  (('a' ≤ c) && (c ≤ 'f')) || (('0' ≤ c) && (c ≤ '9'))

/-- A decimal digit, the class `\d`. -/
def isDigitChar (c : Char) : Bool :=
  ('0' ≤ c) && (c ≤ '9')

/-- `^[a-f0-9]{4}$` — base-form identifier. -/
def isBaseId (s : String) : Bool :=
  s.data.length == 4 && s.data.all isHexChar

/-- `^[a-f0-9]{4}_\d+$` — suffixed-form identifier. -/
def isSuffixedId (s : String) : Bool :=
  decide (6 ≤ s.data.length) && (s.data.take 4).all isHexChar &&
    (s.data.get? 4 == some '_') && (s.data.drop 5).all isDigitChar

/-- `isValidBlockId` (input-validator.ts lines 171-183). -/
def isValidBlockId (s : String) : Bool :=
  isBaseId s || isSuffixedId s

/-- Host-side identifier finalization: the `block_id` branch of
`ensure_blocks_have_post_id` (class-rest-api.php lines 676-688): a bare
4-hex id gets `_postId` appended; an id already carrying a numeric suffix
keeps its first four characters and gets the suffix replaced; anything
else is left alone. -/
def finalizeId (id : String) (postId : Nat) : String :=
  if isBaseId id then id ++ "_" ++ Nat.repr postId
  else if isSuffixedId id then String.mk (id.data.take 4) ++ "_" ++ Nat.repr postId
  else id

/-- Client-side suffixing applied by `formatBlock` to an existing truthy
`attrs.block_id` (block-formatter.js lines 102-105): append `_postId` only
when `postId` is truthy and the id does not already contain `'_'`. -/
def clientSuffixId (id : String) (postId : Nat) : String :=
  if decide (postId ≠ 0) && !(id.data.contains '_') then id ++ "_" ++ Nat.repr postId
  else id

/-- JS truthiness of an optional `postId` parameter (`postId ? … : …`,
`postId && …`). -/
def postIdT : Option Nat → Bool
  | none => false
  | some p => p != 0

/-- The `block_id` update step of the client-side formatter
(block-formatter.js lines 96-105), given the current `attrs.block_id` value
(`none` = absent): a falsy id is replaced by a freshly generated hex id
(suffixed with `_postId` when `postId` is truthy); a truthy string id gets
`_postId` appended only when `postId` is truthy and the id has no `'_'`;
a truthy id that is already suffixed is left alone.  `gen`/`c` model the
`Math.random` generator; calling `.includes` on a truthy non-string id is a
`TypeError`.  Returns (value after, whether `attrs` was written, counter). -/
def formatIdUpdate (gen : Nat → String) (postId : Option Nat) (cur : Option AVal)
    (c : Nat) : Except String (Option AVal × Bool × Nat) :=
  if !truthyOpt cur then
    let hexId := gen c
    .ok (some (.vstr (if postIdT postId then hexId ++ "_" ++ Nat.repr (postId.getD 0)
                      else hexId)), true, c + 1)
  else
    match cur with
    | some (.vstr s) =>
      if postIdT postId && !(s.data.contains '_') then
        .ok (some (.vstr (s ++ "_" ++ Nat.repr (postId.getD 0))), true, c)
      else
        .ok (cur, false, c)
    | _ =>
      if postIdT postId then .error "TypeError: block_id.includes is not a function"
      else .ok (cur, false, c)

/-! ## Block trees, structured errors and warnings

The tree shape handled by `src/utils/input-validator.ts`: a block has an
optional `blockName`, an `attrs` value of any JS type (absent = `none`), an
`innerBlocks` field that is absent (`none`), an array of child blocks
(`some (.inl …)`), or a non-array value recorded with its truthiness
(`some (.inr truthiness)`), plus optional `innerHTML`/`innerContent`. -/
inductive Block where
  | mk (blockName : Option String) (attrs : Option AVal)
       (inner : Option (List Block ⊕ Bool))
       (innerHTML : Option String)
       (innerContent : Option (List (Option String)))

def Block.blockName : Block → Option String
  | .mk bn _ _ _ _ => bn

def Block.attrs : Block → Option AVal
  | .mk _ a _ _ _ => a

def Block.inner : Block → Option (List Block ⊕ Bool)
  | .mk _ _ i _ _ => i

def Block.innerHTML : Block → Option String
  | .mk _ _ _ h _ => h

def Block.innerContent : Block → Option (List (Option String))
  | .mk _ _ _ _ c => c

/-- The `error_code` of the structured errors produced by the validator's
constructor helpers in `src/tools/index.ts`. -/
inductive ErrCode where
  | MISSING_REQUIRED_ATTR
  | INVALID_BLOCK_NAME
  | MISSING_BLOCK_ID
  | INVALID_BLOCK_ID_FORMAT
  | TYPE_MISMATCH
deriving DecidableEq, Repr

/-- A `StructuredError` restricted to the parts the claims are about: its
code and its `details.field` path (`none` when the constructor sets no
`field`, as `invalidBlockNameError` does). -/
structure SErr where
  code : ErrCode
  field : Option String
deriving DecidableEq, Repr

/-- `missingFieldError(field, …)` — code `MISSING_REQUIRED_ATTR`, `details.field = field`. -/
def missingFieldError (f : String) : SErr := ⟨.MISSING_REQUIRED_ATTR, some f⟩

/-- `invalidBlockNameError(received, …)` — no `details.field`. -/
def invalidBlockNameError : SErr := ⟨.INVALID_BLOCK_NAME, none⟩

/-- `missingBlockIdError(blockName)` — `details.field = "attrs.block_id"`. -/
def missingBlockIdError : SErr := ⟨.MISSING_BLOCK_ID, some "attrs.block_id"⟩

/-- `invalidBlockIdError(blockId, …)` — `details.field = "attrs.block_id"`. -/
def invalidBlockIdError : SErr := ⟨.INVALID_BLOCK_ID_FORMAT, some "attrs.block_id"⟩

/-- `validationError(field, expected, received, …)` — code `TYPE_MISMATCH`,
`details.field = field`. -/
def validationError (f : String) : SErr := ⟨.TYPE_MISMATCH, some f⟩

/-- The validator's warnings, one constructor per `push` site, carrying the
data interpolated into the source's warning strings. -/
inductive Warn where
  | missingHtml (idDisp : String)
  | dupIds (ids : List String)
  | noSchema
  | belowMin (bn attr : String)
  | aboveMax (bn attr : String)
  | lenBelow (bn attr : String)
  | lenAbove (bn attr : String)
  | unknownAttr (bn attr : String)
  | atPath (path : String) (w : Warn)
deriving DecidableEq, Repr

/-- `ValidationResult`. -/
structure VR where
  valid : Bool
  errors : List SErr
  warnings : List Warn
deriving DecidableEq, Repr

/-- Falsiness of an optional JS string (`!block.blockName`). -/
def strFalsy : Option String → Bool
  | none => true
  | some s => s == ""

/-- `s.startsWith(pre)` (via the character lists, so that it evaluates
definitionally). -/
def strStarts (s pre : String) : Bool :=
  pre.data.isPrefixOf s.data

/-- ASCII `toLowerCase` (the alias-table keys and the embedded inputs are
ASCII). -/
def charLower (c : Char) : Char :=
  if ('A' ≤ c) && (c ≤ 'Z') then Char.ofNat (c.toNat + 32) else c

def jsToLower (s : String) : String :=
  String.mk (s.data.map charLower)

/-- `block.blockName?.startsWith('tpgb/')`. -/
def isTpgb : Option String → Bool
  | none => false
  | some s => strStarts s "tpgb/"

/-- `[a-z0-9-]`, the character class of block-name parts. -/
def isNameChar (c : Char) : Bool :=
  (('a' ≤ c) && (c ≤ 'z')) || (('0' ≤ c) && (c ≤ '9')) || (c == '-')

/-- A nonempty run of `[a-z0-9-]`. -/
def namePart (l : List Char) : Bool :=
  decide (l ≠ []) && l.all isNameChar

/-- `^[a-z0-9-]+\/[a-z0-9-]+$`: exactly one `'/'`, nonempty name parts on
both sides. -/
def nsNamePat (bn : String) : Bool :=
  let pre := bn.data.takeWhile (fun c => c != '/')
  let post := bn.data.drop (pre.length + 1)
  decide (pre.length < bn.data.length) && namePart pre && namePart post &&
    !(post.contains '/')

/-- `isValidBlockName` (input-validator.ts lines 153-166). -/
def isValidBlockName (bn : String) : Bool :=
  if strStarts bn "tpgb/" then
    namePart (bn.data.drop 5)
  else if strStarts bn "core/" then
    true
  else
    nsNamePat bn

/-- The static alias table of `getSuggestedBlockNames` (lines 192-200). -/
def commonMappings : List (String × String) :=
  [("heading", "tpgb/tp-heading"),
   ("paragraph", "tpgb/tp-pro-paragraph"),
   ("button", "tpgb/tp-button"),
   ("image", "tpgb/tp-image"),
   ("container", "tpgb/tp-container"),
   ("accordion", "tpgb/tp-accordion"),
   ("tabs", "tpgb/tp-tabs-tours")]

/-- `getSuggestedBlockNames` (input-validator.ts lines 188-223). -/
def getSuggestedBlockNames (input : String) : List String :=
  let lower := jsToLower input
  let s1 : List String :=
    match commonMappings.find? (fun p => p.1 == lower) with
    | some p => [p.2]
    | none => []
  let s2 : List String :=
    if strStarts input "tp-" then ["tpgb/tp-" ++ String.mk (input.data.drop 3)]
    else if strStarts input "tpgb-" then ["tpgb/tp-" ++ String.mk (input.data.drop 5)]
    else []
  let s := s1 ++ s2
  if s.isEmpty then ["tpgb/tp-heading", "tpgb/tp-pro-paragraph", "tpgb/tp-button"]
  else s

/-- The string a `block_id` value is coerced to by `RegExp.test`/template
literals. -/
def blockIdStr : AVal → String := AVal.disp

/-- Child-error re-rooting in `validateBlock` (lines 75-80): errors that
carry a `details.field` get the `innerBlocks[i].` prefix; errors without a
field are pushed unchanged. -/
def innerPrefix (i : Nat) (e : SErr) : SErr :=
  match e.field with
  | some f => { e with field := some ("innerBlocks[" ++ Nat.repr i ++ "]." ++ f) }
  | none => e

/-- The `blockName` checks of `validateBlock` (lines 30-38). -/
def nameErrs (bn : Option String) : List SErr :=
  match bn with
  | none => [missingFieldError "blockName"]
  | some s =>
    if s == "" then [missingFieldError "blockName"]
    else if !(isValidBlockName s) then [invalidBlockNameError]
    else []

/-- The `attrs` checks of `validateBlock` (lines 41-50). -/
def attrsErrs (attrs : Option AVal) : List SErr :=
  match attrs with
  | none => [missingFieldError "attrs"]
  | some v =>
    if !(truthy v) then [missingFieldError "attrs"]
    else if !(jsTypeof v == "object") then [validationError "attrs"]
    else []

/-- `block.attrs?.block_id` given the `attrs` value. -/
def bidOf (attrs : Option AVal) : Option AVal :=
  match attrs with
  | some v => olookA v "block_id"
  | none => none

/-- The `block_id` checks of `validateBlock` for governed (`tpgb/`) blocks
(lines 53-59). -/
def idErrs (bn : Option String) (attrs : Option AVal) : List SErr :=
  if isTpgb bn then
    match bidOf attrs with
    | none => [missingBlockIdError]
    | some v =>
      if !(truthy v) then [missingBlockIdError]
      else if !(isValidBlockId (blockIdStr v)) then [invalidBlockIdError]
      else []
  else []

/-- The missing-`innerHTML` warning of `validateBlock` (lines 88-92). -/
def htmlWarns (bn : Option String) (attrs : Option AVal) (ih : Option String) :
    List Warn :=
  if isTpgb bn && strFalsy ih then
    [Warn.missingHtml (match bidOf attrs with
      | some v => if truthy v then blockIdStr v else "unknown"
      | none => "unknown")]
  else []

mutual

/-- `validateBlock` (input-validator.ts lines 26-99), returning the
`ValidationResult` together with the input tree as it stands after the call
(the source never assigns into the tree, and the returned tree is rebuilt
from the recursion so that this is a theorem, not a convention). -/
def validateBlock : Block → VR × Block
  | .mk bn attrs inner ih ic =>
    let inr :=
      match inner with
      | none => (([] : List SErr), ([] : List Warn), (none : Option (List Block ⊕ Bool)))
      | some (.inr t) =>
        ((if t then [validationError "innerBlocks"] else []), [], some (.inr t))
      | some (.inl cs) =>
        let r := validateChildren 0 cs
        (r.1, r.2.1, some (.inl r.2.2))
    let errs := nameErrs bn ++ attrsErrs attrs ++ idErrs bn attrs ++ inr.1
    let warns := inr.2.1 ++ htmlWarns bn attrs ih
    ({ valid := errs.isEmpty, errors := errs, warnings := warns },
      .mk bn attrs inr.2.2 ih ic)

/-- The `block.innerBlocks.forEach` loop of `validateBlock` (lines 71-83). -/
def validateChildren : Nat → List Block → List SErr × List Warn × List Block
  | _, [] => ([], [], [])
  | i, c :: cs =>
    let (r, c') := validateBlock c
    let rest := validateChildren (i + 1) cs
    (r.errors.map (innerPrefix i) ++ rest.1, r.warnings ++ rest.2.1, c' :: rest.2.2)

end

/-- Top-level error re-rooting in `validateBlocks` (lines 120-127): errors
with a `details.field` get the `blocks[i].` prefix; errors without one get
their `details` replaced by `{field: "blocks[i]"}`. -/
def blocksPrefix (i : Nat) (e : SErr) : SErr :=
  match e.field with
  | some f => { e with field := some ("blocks[" ++ Nat.repr i ++ "]" ++ "." ++ f) }
  | none => { code := e.code, field := some ("blocks[" ++ Nat.repr i ++ "]") }

/-- The `blocks.forEach` loop of `validateBlocks` (lines 116-130). -/
def blocksLoop : Nat → List Block → List SErr × List Warn × List Block
  | _, [] => ([], [], [])
  | i, b :: bs =>
    let (r, b') := validateBlock b
    let rest := blocksLoop (i + 1) bs
    (r.errors.map (blocksPrefix i) ++ rest.1, r.warnings ++ rest.2.1, b' :: rest.2.2)

/-- `block.attrs?.block_id` of a block. -/
def blockIdOf (b : Block) : Option AVal :=
  bidOf b.attrs

/-- `blocks.filter(b => b.attrs?.block_id).map(b => b.attrs.block_id)`
(lines 133-135): the truthy top-level identifiers, in order. -/
def topBlockIds (bs : List Block) : List AVal :=
  bs.filterMap (fun b =>
    match blockIdOf b with
    | some v => if truthy v then some v else none
    | none => none)

/-- `blockIds.filter((id, index) => blockIds.indexOf(id) !== index)`: the
non-first occurrences, via a seen-prefix accumulator (JS `===` is
`avalBeq` on the primitive identifier values). -/
def jsDupGo (seen : List AVal) : List AVal → List AVal
  | [] => []
  | x :: rest =>
    (if seen.any (avalBeq x) then [x] else []) ++ jsDupGo (seen ++ [x]) rest

def jsDuplicates (xs : List AVal) : List AVal := jsDupGo [] xs

/-- `[...new Set(xs)]`: dedup keeping first-occurrence order. -/
def jsSetDedupGo (seen : List AVal) : List AVal → List AVal
  | [] => []
  | x :: rest =>
    if seen.any (avalBeq x) then jsSetDedupGo seen rest
    else x :: jsSetDedupGo (seen ++ [x]) rest

def jsSetDedup (xs : List AVal) : List AVal := jsSetDedupGo [] xs

/-- `validateBlocks` (input-validator.ts lines 104-148) on an array input,
returning the result and the post-call tree.  (The non-array early return of
lines 108-114 is `validateBlocksInput` below.) -/
def validateBlocks (bs : List Block) : VR × List Block :=
  let r := blocksLoop 0 bs
  let ids := topBlockIds r.2.2
  let dups := jsDuplicates ids
  let ws := r.2.1 ++
    (if dups.isEmpty then [] else [Warn.dupIds ((jsSetDedup dups).map AVal.disp)])
  ({ valid := r.1.isEmpty, errors := r.1, warnings := ws }, r.2.2)

/-- `validateBlocks` including the non-array early return (lines 108-114):
a non-array `blocks` argument yields a single `TYPE_MISMATCH` on field
`"blocks"` and `valid: false`. -/
def validateBlocksInput : List Block ⊕ AVal → VR
  | .inl bs => (validateBlocks bs).1
  | .inr _ => { valid := false, errors := [validationError "blocks"], warnings := [] }

/-! ## Schema-aware validation

`validateAttributeType`, `validateBlockAgainstSchema` and
`validateBlocksWithSchemas` (input-validator.ts lines 228-250, 323-426,
431-484).  An attribute schema entry is embedded structurally; JS regexes
(`attrDef.pattern`) are modelled by an explicit test-function parameter
`rt : pattern → candidate → Bool`, so every theorem below holds for every
regex semantics. -/
/-- One entry of a schema's `attributes` map: the fields
`validateBlockAgainstSchema` reads.  `minimum`/`maximum`/`minLength`/
`maxLength` use `!== undefined` checks in the source, so presence (not
truthiness) is what `Option` models; `type`/`pattern`/`enum` are guarded by
truthiness/`Array.isArray`, captured by the `Option` plus the emptiness
checks at use sites. -/
structure AttrDef where
  required : Bool := false
  jstype : Option String := none
  enumv : Option (List AVal) := none
  pattern : Option String := none
  minimum : Option Int := none
  maximum : Option Int := none
  minLength : Option Nat := none
  maxLength : Option Nat := none

/-- A block-type schema as consumed by the validator: its `attributes` map
(`none` when `schema.attributes` is absent/falsy). -/
structure Schema0 where
  attributes : Option (List (String × AttrDef))

/-- `validateAttributeType` (lines 228-250): the sequence of early returns,
with arrays and objects special-cased. -/
def validateAttributeType (value : AVal) (expected : String) (attrName : String) :
    Option SErr :=
  let actualType := if isArr value then "array" else jsTypeof value
  if expected == "array" && !(isArr value) then some (validationError attrName)
  else if expected == "object" && (!(actualType == "object") || isArr value) then
    some (validationError attrName)
  else if !(expected == "array") && !(expected == "object") && !(actualType == expected) then
    some (validationError attrName)
  else none

/-- Display of `block.blockName` inside warning strings (`undefined` when
absent). -/
def bnDispOf : Option String → String
  | some s => s
  | none => "undefined"

/-- The per-declared-attribute loop of `validateBlockAgainstSchema`
(lines 338-409), over `Object.entries(schema.attributes)` in order. -/
def schemaAttrLoop (rt : String → String → Bool) (bnD : String) (attrsV : AVal) :
    List (String × AttrDef) → List SErr × List Warn
  | [] => ([], [])
  | (an, ad) :: rest =>
    let r := schemaAttrLoop rt bnD attrsV rest
    match olookA attrsV an with
    | none =>
      if ad.required then (missingFieldError an :: r.1, r.2) else r
    | some v =>
      let typeErr : Option SErr :=
        match ad.jstype with
        | some t => if t == "" then none else validateAttributeType v t an
        | none => none
      match typeErr with
      | some e => (e :: r.1, r.2)
      | none =>
        let enumErrs : List SErr :=
          match ad.enumv with
          | some vs => if !(vs.any (fun x => avalBeq x v)) then [validationError an] else []
          | none => []
        let patErrs : List SErr :=
          match ad.pattern with
          | some p =>
            if !(p == "") then
              match v with
              | .vstr sv => if !(rt p sv) then [validationError an] else []
              | _ => []
            else []
          | none => []
        let numWarns : List Warn :=
          match v with
          | .vnum n =>
            (match ad.minimum with
             | some m => if n < m then [Warn.belowMin bnD an] else []
             | none => []) ++
            (match ad.maximum with
             | some m => if m < n then [Warn.aboveMax bnD an] else []
             | none => [])
          | _ => []
        let lenWarns : List Warn :=
          match v with
          | .vstr sv =>
            (match ad.minLength with
             | some m => if sv.data.length < m then [Warn.lenBelow bnD an] else []
             | none => []) ++
            (match ad.maxLength with
             | some m => if m < sv.data.length then [Warn.lenAbove bnD an] else []
             | none => [])
          | _ => []
        (enumErrs ++ patErrs ++ r.1, numWarns ++ lenWarns ++ r.2)

/-- The unknown-attribute loop of `validateBlockAgainstSchema`
(lines 412-419), over `Object.keys(attrs)`, exempting `block_id` and
`className`. -/
def unknownAttrLoop (bnD : String) (sattrs : List (String × AttrDef)) :
    List (String × AVal) → List Warn
  | [] => []
  | (k, _) :: rest =>
    (if k == "block_id" || k == "className" then []
     else if (sattrs.find? (fun p => p.1 == k)).isNone then [Warn.unknownAttr bnD k]
     else []) ++ unknownAttrLoop bnD sattrs rest

/-- `validateBlockAgainstSchema` (lines 323-426).  `schema = none` (or a
schema with falsy `attributes`) skips schema validation with the
`'No schema available for validation'` warning and `valid: true`. -/
def validateBlockAgainstSchema (rt : String → String → Bool) (b : Block)
    (schema : Option Schema0) : VR :=
  match schema with
  | none => { valid := true, errors := [], warnings := [Warn.noSchema] }
  | some sc =>
    match sc.attributes with
    | none => { valid := true, errors := [], warnings := [Warn.noSchema] }
    | some sattrs =>
      let attrsV : AVal :=
        match b.attrs with
        | some v => if truthy v then v else .vobj []
        | none => .vobj []
      let bnD := bnDispOf b.blockName
      let r := schemaAttrLoop rt bnD attrsV sattrs
      let uw := unknownAttrLoop bnD sattrs (objFields attrsV)
      { valid := r.1.isEmpty, errors := r.1, warnings := r.2 ++ uw }

/-- Path re-rooting of schema errors in `validateBlocksWithSchemas`
(lines 451-458): with a nonempty path, errors with a field get
`path ++ "."` in front, errors without one get the path as their field. -/
def pathReroot (p : String) (e : SErr) : SErr :=
  if p == "" then e
  else
    match e.field with
    | some f => { e with field := some (p ++ "." ++ f) }
    | none => { code := e.code, field := some p }

mutual

/-- The recursive `validateBlockWithSchema` closure of
`validateBlocksWithSchemas` (lines 444-473): schema lookup by block name,
schema validation with path re-rooting, then recursion into array
`innerBlocks` with `innerBlocks[i]` path extension. -/
def schemaWalk (rt : String → String → Bool) (schemas : List (String × Schema0)) :
    Block → String → List SErr × List Warn
  | .mk bn attrs inner ih ic, p =>
    let found : Option Schema0 :=
      match bn with
      | some n => (schemas.find? (fun q => q.1 == n)).map (fun q => q.2)
      | none => none
    let own : List SErr × List Warn :=
      match found with
      | some sc =>
        let sv := validateBlockAgainstSchema rt (.mk bn attrs inner ih ic) (some sc)
        (sv.errors.map (pathReroot p),
         sv.warnings.map (fun w => if p == "" then w else Warn.atPath p w))
      | none => ([], [])
    let sub : List SErr × List Warn :=
      match inner with
      | some (.inl cs) => schemaWalkList rt schemas cs 0 p
      | _ => ([], [])
    (own.1 ++ sub.1, own.2 ++ sub.2)

/-- The `innerBlocks.forEach` of `validateBlockWithSchema` (lines 467-472). -/
def schemaWalkList (rt : String → String → Bool) (schemas : List (String × Schema0)) :
    List Block → Nat → String → List SErr × List Warn
  | [], _, _ => ([], [])
  | c :: cs', i, p =>
    let ip := if p == "" then "innerBlocks[" ++ Nat.repr i ++ "]"
              else p ++ ".innerBlocks[" ++ Nat.repr i ++ "]"
    let r := schemaWalk rt schemas c ip
    let rest := schemaWalkList rt schemas cs' (i + 1) p
    (r.1 ++ rest.1, r.2 ++ rest.2)

end

/-- The top-level `blocks.forEach` of `validateBlocksWithSchemas`
(lines 475-477), rooting each block at path `blocks[i]`. -/
def schemaWalkTop (rt : String → String → Bool) (schemas : List (String × Schema0)) :
    Nat → List Block → List SErr × List Warn
  | _, [] => ([], [])
  | i, b :: bs =>
    let r := schemaWalk rt schemas b ("blocks[" ++ Nat.repr i ++ "]")
    let rest := schemaWalkTop rt schemas (i + 1) bs
    (r.1 ++ rest.1, r.2 ++ rest.2)

/-- `validateBlocksWithSchemas` (lines 431-484): structural validation
first, then the schema walk, concatenating errors and warnings; the
post-call tree is the structural validation's (the walk reads only). -/
def validateBlocksWithSchemas (rt : String → String → Bool)
    (bs : List Block) (schemas : List (String × Schema0)) : VR × List Block :=
  let basic := validateBlocks bs
  let w := schemaWalkTop rt schemas 0 basic.2
  let errs := basic.1.errors ++ w.1
  ({ valid := errs.isEmpty, errors := errs, warnings := basic.1.warnings ++ w.2 },
    basic.2)

/-! ## C4: error-path re-rooting -/
/-- A trivial regex semantics for concrete schema evaluations (the concrete
schemas below declare no `pattern`). -/
def rtAny : String → String → Bool := fun _ _ => true

/-- A nested governed block whose declared attribute `foo` holds a number
where the schema wants a string. -/
def cexChild4 : Block :=
  .mk (some "tpgb/tp-heading")
    (some (.vobj [("block_id", .vstr "cd34"), ("foo", .vnum 5)])) none (some "h") none

def cexParent4 : Block :=
  .mk (some "tpgb/tp-heading") (some (.vobj [("block_id", .vstr "ab12")]))
    (some (.inl [cexChild4])) (some "h") none

def cexCore4 : Block := .mk (some "core/x") (some (.vobj [])) none none none

def cexSchemas4 : List (String × Schema0) :=
  [("tpgb/tp-heading", ⟨some [("foo", { jstype := some "string" })]⟩)]

/-- A nested governed block with a malformed identifier (structural error). -/
def cexBadChild4 : Block :=
  .mk (some "tpgb/tp-heading") (some (.vobj [("block_id", .vstr "zzzz")])) none
    (some "h") none

def cexParentBad4 : Block :=
  .mk (some "tpgb/tp-heading") (some (.vobj [("block_id", .vstr "ab12")]))
    (some (.inl [cexBadChild4])) (some "h") none

/-! ## C7: duplicate identifiers -/
/-- Recognizes the `'Duplicate block_ids found: …'` warning. -/
def isDupWarn : Warn → Bool
  | .dupIds _ => true
  | _ => false

/-- Recognizes the `'Block … missing innerHTML …'` warning. -/
def isHtmlWarn : Warn → Bool
  | .missingHtml _ => true
  | _ => false

/-- Two sibling governed blocks sharing the identifier `"ab12"`. -/
def cexSib7a : Block :=
  .mk (some "tpgb/tp-heading") (some (.vobj [("block_id", .vstr "ab12")])) none
    (some "h") none

def cexSib7b : Block :=
  .mk (some "tpgb/tp-button") (some (.vobj [("block_id", .vstr "ab12")])) none
    (some "h") none

/-- A governed block whose nested child repeats its identifier `"ab12"`. -/
def cexDupChild7 : Block :=
  .mk (some "tpgb/tp-heading") (some (.vobj [("block_id", .vstr "ab12")])) none
    (some "h") none

def cexDupParent7 : Block :=
  .mk (some "tpgb/tp-heading") (some (.vobj [("block_id", .vstr "ab12")]))
    (some (.inl [cexDupChild7])) (some "h") none

/-! ## Auto-fix engine

`autoFixBlock` and `validateAndFix` (input-validator.ts lines 255-318).
`randomBytes(2).toString('hex')` is modelled by the explicit generated id
`g` (one per top-level block in `validateAndFix`, indexed by position, since
`autoFixBlock` generates at most one id).  The ECMAScript-strict-mode
`TypeError` raised by assigning `fixed.attrs.block_id` when `attrs` is a
truthy primitive is an `Except.error`; a truthy *array* `attrs` would, in
JS, receive `block_id` as an array property, which `AVal` cannot carry —
that corner is left with `attrs` unchanged and excluded by `autoFixSafe`
wherever a theorem depends on it. -/
/-- The `fixed.attrs.block_id = …` assignment of `autoFixBlock`
(line 262), applied to `fixed.attrs = fixed.attrs || {}`. -/
def setBlockId (v : AVal) (g : String) : Except String AVal :=
  match v with
  | .vobj fs => .ok (.vobj (oset fs "block_id" (.vstr g)))
  | .varr xs => .ok (.varr xs)
  | _ => .error "TypeError: cannot create property on primitive"

/-- Fix step (a) of `autoFixBlock` (lines 260-264): generate an identifier
when the block is governed and `attrs?.block_id` is falsy, after
`fixed.attrs = fixed.attrs || {}`. -/
def afStep1 (g : String) (bn : Option String) (attrs : Option AVal) :
    Except String (Option AVal × List String) :=
  if isTpgb bn && !(truthyOpt (bidOf attrs)) then do
    let base := match attrs with
      | some v => if truthy v then v else .vobj []
      | none => .vobj []
    let set ← setBlockId base g
    pure (some set, ["Generated block_id: " ++ g])
  else
    pure (attrs, [])

/-- Fix step (b) of `autoFixBlock` (lines 267-273): rewrite a truthy,
non-governed, slash-free block name to the first suggestion. -/
def afStep2 (bn : Option String) : Option String × List String :=
  match bn with
  | some s =>
    if !(s == "") && !(strStarts s "tpgb/") && !(s.data.contains '/') then
      match getSuggestedBlockNames s with
      | n :: _ => (some n, ["Changed blockName from \"" ++ s ++ "\" to \"" ++ n ++ "\""])
      | [] => (some s, [])
    else (some s, [])
  | none => (none, [])

/-- Fix step (c) of `autoFixBlock` (lines 276-279): replace a falsy or
non-object `attrs` with `{}`. -/
def afStep3 (a : Option AVal) : Option AVal × List String :=
  match a with
  | none => (some (.vobj []), ["Initialized attrs as empty object"])
  | some v =>
    if !(truthy v) || !(jsTypeof v == "object") then
      (some (.vobj []), ["Initialized attrs as empty object"])
    else (some v, [])

/-- Fix step (d) of `autoFixBlock` (lines 282-285): reset a truthy
non-array `innerBlocks` to `[]`. -/
def afStep4 (inner : Option (List Block ⊕ Bool)) :
    Option (List Block ⊕ Bool) × List String :=
  match inner with
  | some (.inr t) =>
    if t then (some (.inl []), ["Reset innerBlocks to empty array"])
    else (some (.inr t), [])
  | other => (other, [])

/-- `autoFixBlock` (lines 255-288): the four fix steps in source order,
returning the fixed block and the change log. -/
def autoFixBlock (g : String) : Block → Except String (Block × List String)
  | .mk bn attrs inner ih ic => do
    let s1 ← afStep1 g bn attrs
    let s2 := afStep2 bn
    let s3 := afStep3 s1.1
    let s4 := afStep4 inner
    pure (.mk s2.1 s3.1 s4.1 ih ic, s1.2 ++ s2.2 ++ s3.2 ++ s4.2)

/-- The result record of `validateAndFix` (lines 293-318). -/
structure FixRes where
  valid : Bool
  blocks : List Block
  errors : List SErr
  warnings : List Warn
  fixes : List String

/-- The `blocks.map(autoFixBlock)` loop of `validateAndFix`
(lines 301-307), with the per-index change-log lines. -/
def afLoop (gen : Nat → String) : Nat → List Block → Except String (List Block × List String)
  | _, [] => .ok ([], [])
  | i, b :: bs => do
    let (fb, ch) ← autoFixBlock (gen i) b
    let (rest, fixes) ← afLoop gen (i + 1) bs
    pure (fb :: rest,
      (if ch.isEmpty then []
       else ["Block " ++ Nat.repr i ++ ": " ++ String.intercalate ", " ch]) ++ fixes)

/-- `validateAndFix` (lines 293-318): auto-fix each top-level block, then
re-validate the fixed tree. -/
def validateAndFix (gen : Nat → String) (bs : List Block) : Except String FixRes := do
  let (fixedBs, fixes) ← afLoop gen 0 bs
  let v := (validateBlocks fixedBs).1
  pure ⟨v.valid, fixedBs, v.errors, v.warnings, fixes⟩

/-! ## C5: auto-fix convergence -/
/-- The identifier-missing and attrs-not-object errors of a top-level block
(the error classes C5 is about, at the block's own field paths). -/
def badTopErr (e : SErr) : Bool :=
  (e.code == ErrCode.MISSING_BLOCK_ID && e.field == some "attrs.block_id") ||
  (e.field == some "attrs")

/-- `autoFixBlock` is faithful on a block when it is not a governed block
with a missing identifier whose `attrs` is a truthy non-object (JS would
throw a `TypeError` for primitives and attach an array property otherwise). -/
def autoFixSafe (b : Block) : Bool :=
  if isTpgb b.blockName && !(truthyOpt (bidOf b.attrs)) then
    match b.attrs with
    | none => true
    | some v => !(truthy v) || (match v with | .vobj _ => true | _ => false)
  else true

/-- `innerErrsOf` — the error component contributed by the `innerBlocks`
field in `validateBlock`. -/
def innerErrsOf : Option (List Block ⊕ Bool) → List SErr
  | none => []
  | some (.inr t) => if t then [validationError "innerBlocks"] else []
  | some (.inl cs) => (validateChildren 0 cs).1

/-- A governed parent with a valid identifier whose nested child is missing
its identifier. -/
def cexNest5Child : Block :=
  .mk (some "tpgb/tp-heading") (some (.vobj [])) none (some "h") none

def cexNest5 : Block :=
  .mk (some "tpgb/tp-heading") (some (.vobj [("block_id", .vstr "ab12")]))
    (some (.inl [cexNest5Child])) (some "h") none

/-! ## Formatter

`generateInnerHTML`, `formatBlock` and `formatBlocksForWordPress`
(dist/utils/block-formatter.js).  `formatBlock` mutates its input
(`block.attrs.block_id = …`), so the embedding returns the post-call input
tree next to the output; the `Math.random` id generator is the explicit
`gen`/counter pair threaded through the recursion. -/
/-- `attrs.k || dflt`, displayed (template-literal coercion). -/
def attrD (attrs : AVal) (k dflt : String) : String :=
  match olookA attrs k with
  | some v => if truthy v then v.disp else dflt
  | none => dflt

/-- `attrs.Showtitle !== false`. -/
def showTitleOf (attrs : AVal) : Bool :=
  match olookA attrs "Showtitle" with
  | some (.vbool false) => false
  | _ => true

/-- `generateInnerHTML` (block-formatter.js lines 25-84): the per-type
markup templates driven solely by the block's attributes. -/
def generateInnerHTML (bn : String) (attrs : AVal) : String :=
  if bn == "tpgb/tp-heading" then
    let tag := attrD attrs "tTag" "h2"
    let title := attrD attrs "title" ""
    let blockId := attrD attrs "block_id" ""
    "<" ++ tag ++ " class=\"wp-block-tpgb-tp-heading tp-core-heading tpgb-block-"
      ++ blockId ++ "\">" ++ title ++ "</" ++ tag ++ ">"
  else if bn == "tpgb/tp-pro-paragraph" then
    let blockId := attrD attrs "block_id" ""
    let content := attrD attrs "content" ""
    let title := attrD attrs "title" ""
    let titleTag := attrD attrs "titleTag" "h3"
    let descTag := attrD attrs "descTag" "div"
    "<div class=\"tpgb-pro-paragraph tpgb-block-" ++ blockId ++ "\">"
      ++ (if showTitleOf attrs && truthyOpt (olookA attrs "title") then
            "<" ++ titleTag ++ " class=\"pro-heading-inner\">" ++ title
              ++ "</" ++ titleTag ++ ">"
          else "")
      ++ (if truthyOpt (olookA attrs "content") then
            "<div class=\"pro-paragraph-inner\"><" ++ descTag ++ ">" ++ content
              ++ "</" ++ descTag ++ "></div>"
          else "")
      ++ "</div>"
  else if bn == "tpgb/tp-image" then
    let blockId := attrD attrs "block_id" ""
    let url := attrD attrs "url" ""
    let alt := attrD attrs "alt" ""
    let caption := attrD attrs "caption" ""
    "<div class=\"wp-block-tpgb-tp-image tpgb-image tpgb-block-" ++ blockId
      ++ "\"><figure class=\"tpgb-figure\">"
      ++ (if truthyOpt (olookA attrs "url") then
            "<img src=\"" ++ url ++ "\" alt=\"" ++ alt ++ "\" class=\"tpgb-img-inner\" />"
          else "")
      ++ (if truthyOpt (olookA attrs "caption") then
            "<figcaption>" ++ caption ++ "</figcaption>"
          else "")
      ++ "</figure></div>"
  else if bn == "tpgb/tp-button" then
    let blockId := attrD attrs "block_id" ""
    let text :=
      if truthyOpt (olookA attrs "buttonText") then attrD attrs "buttonText" ""
      else if truthyOpt (olookA attrs "text") then attrD attrs "text" ""
      else "Button"
    let url :=
      match olookA attrs "buttonLink" with
      | some bl =>
        match olookA bl "url" with
        | some u => if truthy u then u.disp else "#"
        | none => "#"
      | none => "#"
    "<div class=\"tpgb-adv-button tpgb-block-" ++ blockId
      ++ "\"><a class=\"button-link-wrap\" href=\"" ++ url ++ "\">" ++ text ++ "</a></div>"
  else if strStarts bn "tpgb/" then
    let blockId := attrD attrs "block_id" ""
    let blockClass := String.mk (bn.data.drop 5)
    "<div class=\"tpgb-" ++ blockClass ++ " tpgb-block-" ++ blockId ++ "\"></div>"
  else ""

/-- A fully-populated Gutenberg block as produced by `formatBlock`. -/
inductive FBlock where
  | mk (blockName : String) (attrs : AVal) (inner : List FBlock)
       (innerHTML : String) (innerContent : List (Option String))

/-- The write-back of the updated `block_id` into `attrs`
(the mutation `block.attrs.block_id = …` of lines 100/104): a primitive
`attrs` throws; an array would take the property in JS — here it is left
unchanged and excluded by `fmtStable` where it matters. -/
def fmtAttrsWrite (av : AVal) (bidv : Option AVal) (wrote : Bool) :
    Except String AVal :=
  if wrote then
    match av, bidv with
    | .vobj fs, some nv => .ok (.vobj (oset fs "block_id" nv))
    | .varr xs, some _ => .ok (.varr xs)
    | _, _ => .error "TypeError: cannot create property on primitive"
  else .ok av

/-- `block.innerHTML || generateInnerHTML(blockName, attrs)` (line 111),
reading the already-updated `attrs`. -/
def fmtHtml (s : String) (av' : AVal) (ih : Option String) : String :=
  match ih with
  | some h => if h == "" then generateInnerHTML s av' else h
  | none => generateInnerHTML s av'

/-- `block.innerContent || (innerBlocks.length > 0 ? innerBlocks.map(() =>
null) : [innerHTML])` (line 118). -/
def fmtContent (ic : Option (List (Option String))) (fcs : List FBlock)
    (htmlS : String) : List (Option String) :=
  match ic with
  | some l => l
  | none => if fcs.length > 0 then List.replicate fcs.length none else [some htmlS]

mutual

/-- `formatBlock` (block-formatter.js lines 88-120), returning the output
block, the input block as it stands after the call (its `attrs.block_id`
may have been written), and the generator counter.  Throws on a falsy
`blockName`/`attrs`, on `.includes` applied to a truthy non-string id, on
`.map` applied to a truthy non-array `innerBlocks`, and on a `block_id`
write to a primitive `attrs`. -/
def formatBlock (gen : Nat → String) (postId : Option Nat) :
    Block → Nat → Except String (FBlock × Block × Nat)
  | .mk bn attrs inner ih ic, c =>
    match bn with
    | none => .error "Block must have blockName"
    | some s =>
      if s == "" then .error "Block must have blockName"
      else
        match attrs with
        | none => .error "Block must have attrs"
        | some av =>
          if !(truthy av) then .error "Block must have attrs"
          else do
            let r1 ← formatIdUpdate gen postId (olookA av "block_id") c
            let av' ← fmtAttrsWrite av r1.1 r1.2.1
            let r2 ←
              ((match inner with
                | some (.inl cs) => do
                  let r ← formatChildren gen postId cs r1.2.2
                  pure (r.1, some (Sum.inl r.2.1), r.2.2)
                | some (.inr t) =>
                  if t then .error "TypeError: block.innerBlocks.map is not a function"
                  else pure ([], some (Sum.inr t), r1.2.2)
                | none => pure ([], none, r1.2.2)) :
                Except String (List FBlock × Option (List Block ⊕ Bool) × Nat))
            let htmlS := fmtHtml s av' ih
            pure (.mk s av' r2.1 htmlS (fmtContent ic r2.1 htmlS),
                  .mk bn (some av') r2.2.1 ih ic, r2.2.2)

/-- The `block.innerBlocks.map(inner => formatBlock(inner, postId))` of
`formatBlock` (lines 107-109), threading the generator counter. -/
def formatChildren (gen : Nat → String) (postId : Option Nat) :
    List Block → Nat → Except String (List FBlock × List Block × Nat)
  | [], c => .ok ([], [], c)
  | b :: bs, c => do
    let r1 ← formatBlock gen postId b c
    let r2 ← formatChildren gen postId bs r1.2.2
    pure (r1.1 :: r2.1, r1.2.1 :: r2.2.1, r2.2.2)

end

/-- `formatBlocksForWordPress` (lines 125-127). -/
def formatBlocksForWordPress (gen : Nat → String) (postId : Option Nat)
    (bs : List Block) (c : Nat) : Except String (List FBlock × List Block × Nat) :=
  formatChildren gen postId bs c

/-! ## C6: formatter mutation and determinism -/
/-- The `attrs` side of format-stability: a truthy `attrs` holding a truthy
string `block_id` that already contains `'_'` whenever `postId` is truthy
(so the id-update step of `formatBlock` writes nothing). -/
def fmtAttrsOk (postId : Option Nat) (attrs : Option AVal) : Bool :=
  match attrs with
  | some av =>
    truthy av &&
    (match olookA av "block_id" with
     | some (.vstr s0) => (s0 != "") && (!(postIdT postId) || s0.data.contains '_')
     | _ => false)
  | none => false

mutual

/-- A format-stable block: truthy `blockName`, format-stable `attrs`, and
recursively format-stable array children (no truthy non-array
`innerBlocks`). -/
def fmtStable (postId : Option Nat) : Block → Bool
  | .mk bn attrs inner _ _ =>
    !(strFalsy bn) && fmtAttrsOk postId attrs &&
    (match inner with
     | some (.inl cs) => fmtStableList postId cs
     | some (.inr t) => !t
     | none => true)

def fmtStableList (postId : Option Nat) : List Block → Bool
  | [] => true
  | b :: bs => fmtStable postId b && fmtStableList postId bs

end

mutual

/-- The formatter's output on a format-stable block, as a pure function of
the block alone (no generator, no counter): what `formatBlock` computes when
its id-generation branch is dead. -/
def formatPure (postId : Option Nat) : Block → FBlock
  | .mk bn attrs inner ih ic =>
    let s := bn.getD ""
    let av := attrs.getD (.vobj [])
    let fcs :=
      match inner with
      | some (.inl cs) => formatPureList postId cs
      | _ => []
    let htmlS := fmtHtml s av ih
    .mk s av fcs htmlS (fmtContent ic fcs htmlS)

def formatPureList (postId : Option Nat) : List Block → List FBlock
  | [] => []
  | b :: bs => formatPure postId b :: formatPureList postId bs

end

/-- A governed block carrying an unsuffixed identifier, with explicit
`innerHTML` and `innerContent`. -/
def cexFmt6 : Block :=
  .mk (some "tpgb/tp-heading") (some (.vobj [("block_id", .vstr "ab12")])) none
    (some "x") (some [some "x"])

/-! ## Reference resolution (`resolve$ref`, schema-loader.ts lines 130-183)

The JS recursion is bounded solely by its depth guard (`depth > 10` returns
the value unresolved).  The embedding recurses on the fuel `11 - depth`:
the guard firing at `depth > 10` is fuel `0`, and every recursive call at
`depth + 1` is one unit of fuel less, so `resolveRefAux` is structurally
total — which is the termination claim itself. -/
/-- `delete resolved[k]`. -/
def eraseKey (v : AVal) (k : String) : AVal :=
  match v with
  | .vobj fs => .vobj (fs.filter (fun p => !(p.1 == k)))
  | other => other

/-- `resolved.structure || resolved`. -/
def structureOrSelf (v : AVal) : AVal :=
  match olookA v "structure" with
  | some sv => if truthy sv then sv else v
  | none => v

/-- The `for (const [name, definition] of this.definitionsCache.entries())`
loop (lines 153-168): first matching `$id`, else a truthy nested
`definitions[defName]`, in cache order; `none` when nothing matches. -/
def refFind (defName refPath : String) : List (String × AVal) → Option AVal
  | [] => none
  | (_, definition) :: rest =>
    if (match olookA definition "$id" with
        | some (.vstr idv) => idv == refPath
        | _ => false) then
      some (structureOrSelf (eraseKey (eraseKey definition "$id") "$schema"))
    else
      match olookA definition "definitions" with
      | some dv =>
        match olookA dv defName with
        | some dd =>
          if truthy dd then some (structureOrSelf (eraseKey dd "$id"))
          else refFind defName refPath rest
        | none => refFind defName refPath rest
      | none => refFind defName refPath rest

/-- `resolve$ref` on the fuel `11 - depth` (see the section comment). -/
def resolveRefAux (defs : List (String × AVal)) : Nat → AVal → AVal
  | 0, v => v
  | fuel + 1, v =>
    match v with
    | .varr xs => .varr (xs.map (resolveRefAux defs fuel))
    | .vobj fs =>
      (match olook fs "$ref" with
       | some (.vstr rp) =>
         if rp != "" then
           if strStarts rp "definitions://" then
             match refFind (String.mk (rp.data.drop 14)) rp defs with
             | some target => resolveRefAux defs fuel target
             | none => .vobj [("$ref", .vstr rp)]
           else .vobj fs
         else .vobj (fs.map (fun p => (p.1, resolveRefAux defs fuel p.2)))
       | _ => .vobj (fs.map (fun p => (p.1, resolveRefAux defs fuel p.2))))
    | other => other

/-- `resolve$ref(obj, depth)` (schema-loader.ts lines 130-183). -/
def resolveRef (defs : List (String × AVal)) (v : AVal) (depth : Nat) : AVal :=
  resolveRefAux defs (11 - depth) v

/-! ## Staged schema loading (`loadStagedSchema`, schema-loader.ts 222-268) -/
/-- The schema detail levels. -/
inductive SchemaLevel where
  | meta
  | core
  | styling
  | examples
  | full
deriving DecidableEq

/-- One iteration of the staged merge loop (lines 252-260): first
`merged.attributes = { ...merged.attributes, ...levelData.attributes }`
when `levelData.attributes` is truthy, then
`merged = { ...merged, ...levelData }` — note that the second, shallow
spread overwrites the `attributes` key just built whenever `levelData`
carries one. -/
def mergeLevelData (merged levelData : AVal) : AVal :=
  let m1 :=
    if truthyOpt (olookA levelData "attributes") then
      match merged with
      | .vobj fs =>
        AVal.vobj (oset fs "attributes"
          (.vobj (jsSpread (objFields ((olook fs "attributes").getD (.vobj [])))
                           (objFields ((olookA levelData "attributes").getD (.vobj []))))))
      | other => other
    else merged
  .vobj (jsSpread (objFields m1) (objFields levelData))

/-- The `for (const level of levels)` loop (lines 248-265): a missing (or
unparseable) level file is skipped. -/
def stagedMergeLoop (files : SchemaLevel → Option AVal) :
    List SchemaLevel → AVal → AVal
  | [], merged => merged
  | lv :: rest, merged =>
    match files lv with
    | some levelData => stagedMergeLoop files rest (mergeLevelData merged levelData)
    | none => stagedMergeLoop files rest merged

/-- `loadStagedSchema` (lines 222-268): the `full` short-circuit when the
file exists, otherwise the level-merge loop, with optional `$ref`
resolution. -/
def loadStagedSchema (defs : List (String × AVal)) (resolveRefs : Bool)
    (files : SchemaLevel → Option AVal) (levels : List SchemaLevel) : AVal :=
  if levels.contains .full then
    match files .full with
    | some schema => if resolveRefs then resolveRef defs schema 0 else schema
    | none =>
      let merged := stagedMergeLoop files levels (.vobj [])
      if resolveRefs then resolveRef defs merged 0 else merged
  else
    let merged := stagedMergeLoop files levels (.vobj [])
    if resolveRefs then resolveRef defs merged 0 else merged

/-- A staged schema directory whose `core` level declares attribute `a` and
whose `styling` level declares attribute `b`. -/
def c3files : SchemaLevel → Option AVal
  | .core => some (.vobj [("attributes", .vobj [("a", .vnum 1)]), ("title", .vstr "T")])
  | .styling => some (.vobj [("attributes", .vobj [("b", .vnum 2)])])
  | _ => none

/-- A 15-definition pointer cycle: `definitions://d0 → d1 → … → d14 → d0`. -/
def cycDef (i j : Nat) : String × AVal :=
  ("d" ++ Nat.repr i,
   .vobj [("$id", .vstr ("definitions://d" ++ Nat.repr i)),
          ("structure", .vobj [("$ref", .vstr ("definitions://d" ++ Nat.repr j))])])

def cycleDefs15 : List (String × AVal) :=
  [cycDef 0 1, cycDef 1 2, cycDef 2 3, cycDef 3 4, cycDef 4 5, cycDef 5 6,
   cycDef 6 7, cycDef 7 8, cycDef 8 9, cycDef 9 10, cycDef 10 11, cycDef 11 12,
   cycDef 12 13, cycDef 13 14, cycDef 14 0]

/-! ### Part 2 — lemmas and the claim theorems -/

-- Sanity checks on the embedding (to be superseded by the claim theorems).
example : finalizeId "ab12" 55 = "ab12_55" := by decide

example : finalizeId "ab12_55" 77 = "ab12_77" := by decide

example : clientSuffixId "ab12_55" 77 = "ab12_55" := by decide

example : isValidBlockId "ab12_55" = true := by decide

example : isValidBlockId "abcg" = false := by decide

/-! ### Decimal rendering facts

PHP's `$block_id . '_' . $post_id` and JS template `` `${id}_${postId}` ``
render the record id in decimal; the embedding uses `Nat.repr`.  The
finalize theorems need that this rendering is a nonempty digit string. -/
theorem digitChar_digit (n : Nat) (h : n < 10) : isDigitChar (Nat.digitChar n) = true := by
  interval_cases n <;> decide

theorem toDigitsCore_digits (fuel : Nat) : ∀ (n : Nat) (acc : List Char),
    acc.all isDigitChar = true → (Nat.toDigitsCore 10 fuel n acc).all isDigitChar = true := by
  induction fuel with
  | zero => intro n acc h; simpa [Nat.toDigitsCore] using h
  | succ fuel ih =>
    intro n acc h
    have hd : isDigitChar (Nat.digitChar (n % 10)) = true :=
      digitChar_digit (n % 10) (Nat.mod_lt _ (by norm_num))
    simp only [Nat.toDigitsCore]
    split
    · simp [hd, h]
    · exact ih _ _ (by simp [hd, h])

theorem toDigitsCore_len_mono (fuel : Nat) : ∀ (n : Nat) (acc : List Char),
    acc.length ≤ (Nat.toDigitsCore 10 fuel n acc).length := by
  induction fuel with
  | zero => intro n acc; simp [Nat.toDigitsCore]
  | succ fuel ih =>
    intro n acc
    simp only [Nat.toDigitsCore]
    split
    · simp
    · exact le_trans (by simp) (ih (n / 10) (Nat.digitChar (n % 10) :: acc))

theorem toDigitsCore_succ_len (fuel n : Nat) (acc : List Char) :
    acc.length + 1 ≤ (Nat.toDigitsCore 10 (fuel + 1) n acc).length := by
  simp only [Nat.toDigitsCore]
  split
  · simp
  · exact le_trans (by simp) (toDigitsCore_len_mono fuel (n / 10) (Nat.digitChar (n % 10) :: acc))

theorem repr_data_digits (n : Nat) : (Nat.repr n).data.all isDigitChar = true := by
  show ((Nat.toDigits 10 n).asString).data.all isDigitChar = true
  exact toDigitsCore_digits (n + 1) n [] rfl

theorem repr_data_len (n : Nat) : 1 ≤ (Nat.repr n).data.length := by
  show 1 ≤ ((Nat.toDigits 10 n).asString).data.length
  exact toDigitsCore_succ_len n n []

theorem hex_no_underscore : ∀ {l : List Char}, l.all isHexChar = true → l.contains '_' = false := by
  intro l
  induction l with
  | nil => intro _; rfl
  | cons c cs ih =>
    intro h
    simp only [List.all_cons, Bool.and_eq_true] at h
    have hcc : c ≠ '_' := by
      intro e
      subst e
      simp [isHexChar] at h
    simp only [List.contains_cons, Bool.or_eq_false_iff]
    exact ⟨beq_eq_false_iff_ne.mpr (fun e => hcc e.symm), ih h.2⟩

/-- Anatomy of `base ++ "_" ++ decimal`: it is never base-form, always
suffixed-form, and its first four characters are the base. -/
theorem suffixed_parts (l : List Char) (h4 : l.length = 4)
    (hhex : l.all isHexChar = true) (r : Nat) :
    isBaseId (String.mk l ++ "_" ++ Nat.repr r) = false ∧
    isSuffixedId (String.mk l ++ "_" ++ Nat.repr r) = true ∧
    (String.mk l ++ "_" ++ Nat.repr r).data.take 4 = l := by
  have hdata : (String.mk l ++ "_" ++ Nat.repr r).data
      = (l ++ ['_']) ++ (Nat.repr r).data := by
    simp
  have hlen5 : (l ++ ['_']).length = 5 := by simp [h4]
  have hlen : (String.mk l ++ "_" ++ Nat.repr r).data.length
      = 5 + (Nat.repr r).data.length := by
    rw [hdata, List.length_append, hlen5]
  have hrl := repr_data_len r
  have htake : (String.mk l ++ "_" ++ Nat.repr r).data.take 4 = l := by
    rw [hdata, List.append_assoc]
    exact List.take_left' h4
  refine ⟨?_, ?_, htake⟩
  · have hne : (String.mk l ++ "_" ++ Nat.repr r).data.length ≠ 4 := by omega
    have hb : ((String.mk l ++ "_" ++ Nat.repr r).data.length == 4) = false :=
      beq_eq_false_iff_ne.mpr hne
    simp only [isBaseId, hb, Bool.false_and]
  · have hget : (String.mk l ++ "_" ++ Nat.repr r).data.get? 4 = some '_' := by
      rw [hdata, List.append_assoc]
      rw [List.get?_eq_getElem?, List.getElem?_append_right (by simp [h4])]
      simp [h4]
    have hdrop : (String.mk l ++ "_" ++ Nat.repr r).data.drop 5 = (Nat.repr r).data := by
      rw [hdata]
      exact List.drop_left' hlen5
    simp only [isSuffixedId, hget, hdrop, htake, Bool.and_eq_true, decide_eq_true_eq]
    refine ⟨⟨⟨by omega, hhex⟩, by simp⟩, repr_data_digits r⟩

/-- Base and suffixed form are mutually exclusive (length 4 vs ≥ 6). -/
theorem suffixed_not_base {s : String} (h : isSuffixedId s = true) : isBaseId s = false := by
  simp only [isSuffixedId, Bool.and_eq_true, decide_eq_true_eq] at h
  have hne : s.data.length ≠ 4 := by omega
  have hb : (s.data.length == 4) = false := beq_eq_false_iff_ne.mpr hne
  simp only [isBaseId, hb, Bool.false_and]

/-- C1.  The host-side identifier finalize operation is a pure function: on a
base-form id it appends `_recordId`; on a suffixed id it keeps the 4-char
base and replaces only the suffix; applying it a second time with the same
record id changes nothing; and `finalize("ab12",55) = "ab12_55"`,
`finalize("ab12_55",77) = "ab12_77"`. -/
theorem c1_finalize_pure_idempotent (id : String) (r : Nat) :
    (isBaseId id = true → finalizeId id r = id ++ "_" ++ Nat.repr r) ∧
    (isSuffixedId id = true →
      finalizeId id r = String.mk (id.data.take 4) ++ "_" ++ Nat.repr r) ∧
    finalizeId (finalizeId id r) r = finalizeId id r ∧
    finalizeId "ab12" 55 = "ab12_55" ∧
    finalizeId "ab12_55" 77 = "ab12_77" := by
  refine ⟨?_, ?_, ?_, by decide, by decide⟩
  · intro hb
    simp [finalizeId, hb]
  · intro hs
    simp [finalizeId, suffixed_not_base hs, hs]
  · by_cases hb : isBaseId id = true
    · have h4 : id.data.length = 4 := by
        simp only [isBaseId, Bool.and_eq_true, beq_iff_eq] at hb
        exact hb.1
      have hhex : id.data.all isHexChar = true := by
        simp only [isBaseId, Bool.and_eq_true] at hb
        exact hb.2
      have hmk : String.mk id.data = id := rfl
      obtain ⟨hnb, hns, htk⟩ := suffixed_parts id.data h4 hhex r
      rw [hmk] at hnb hns htk
      simp only [finalizeId, hb, if_true, hnb, hns, if_false, Bool.false_eq_true, htk, hmk]
    · by_cases hs : isSuffixedId id = true
      · have h6 : 6 ≤ id.data.length := by
          simp only [isSuffixedId, Bool.and_eq_true, decide_eq_true_eq] at hs
          exact hs.1.1.1
        have h4 : (id.data.take 4).length = 4 := by
          rw [List.length_take]
          omega
        have hhex : (id.data.take 4).all isHexChar = true := by
          simp only [isSuffixedId, Bool.and_eq_true] at hs
          exact hs.1.1.2
        obtain ⟨hnb, hns, htk⟩ := suffixed_parts (id.data.take 4) h4 hhex r
        have hdmk : (String.mk (id.data.take 4)).data = id.data.take 4 := rfl
        simp only [finalizeId, hb, if_false, hs, if_true, Bool.false_eq_true]
        simp only [hnb, hns, if_true, if_false, Bool.false_eq_true, htk]
      · simp only [finalizeId, hb, hs, if_false, Bool.false_eq_true]

/-- Witness for C1 at `id = "ab12_55"`, `r = 77`. -/
theorem c1_finalize_pure_idempotent_witness :
    finalizeId "ab12_55" 77 = String.mk (("ab12_55" : String).data.take 4) ++ "_" ++ Nat.repr 77 :=
  (c1_finalize_pure_idempotent "ab12_55" 77).2.1 (by decide)

/-- C2, counterexample.  On the already-suffixed identifier `"ab12_55"` with
record id 77 the client-side formatter keeps `"ab12_55"` (it only checks for
the presence of `'_'`), while the host-side finalize replaces the suffix and
produces `"ab12_77"`: the two implementations disagree. -/
theorem c2_client_host_counterexample :
    formatIdUpdate (fun _ => "ffff") (some 77) (some (.vstr "ab12_55")) 0
      = .ok (some (.vstr "ab12_55"), false, 0) ∧
    finalizeId "ab12_55" 77 = "ab12_77" ∧
    ("ab12_55" : String) ≠ "ab12_77" := by
  refine ⟨rfl, by decide, by decide⟩

/-- C2, amended.  For base-form identifiers (and a truthy record id) the
client-side and host-side finalize implementations agree; for an
already-suffixed identifier the client keeps the old id unchanged while the
host replaces the suffix with the current record id. -/
theorem c2_client_host_equiv_base (id : String) (r : Nat) (g : Nat → String) (c : Nat)
    (hr : 0 < r) :
    (isBaseId id = true →
      formatIdUpdate g (some r) (some (.vstr id)) c
        = .ok (some (.vstr (finalizeId id r)), true, c)) ∧
    (isSuffixedId id = true →
      formatIdUpdate g (some r) (some (.vstr id)) c = .ok (some (.vstr id), false, c) ∧
      finalizeId id r = String.mk (id.data.take 4) ++ "_" ++ Nat.repr r) := by
  have hrt : postIdT (some r) = true := by
    simp [postIdT]
    omega
  constructor
  · intro hb
    have h4 : id.data.length = 4 := by
      simp only [isBaseId, Bool.and_eq_true, beq_iff_eq] at hb
      exact hb.1
    have hhex : id.data.all isHexChar = true := by
      simp only [isBaseId, Bool.and_eq_true] at hb
      exact hb.2
    have hne : id ≠ "" := by
      intro e
      rw [e] at h4
      simp at h4
    have htr : truthyOpt (some (.vstr id)) = true := by
      simp [truthyOpt, truthy, hne]
    have hnc : id.data.contains '_' = false := hex_no_underscore hhex
    simp only [formatIdUpdate, htr, Bool.not_true, Bool.false_eq_true, if_false,
      hrt, hnc, Bool.not_false, Bool.and_self, if_true]
    simp [finalizeId, hb]
  · intro hs
    have h6 : 6 ≤ id.data.length := by
      simp only [isSuffixedId, Bool.and_eq_true, decide_eq_true_eq] at hs
      exact hs.1.1.1
    have hne : id ≠ "" := by
      intro e
      rw [e] at h6
      simp at h6
    have htr : truthyOpt (some (.vstr id)) = true := by
      simp [truthyOpt, truthy, hne]
    have hmem : '_' ∈ id.data := by
      have hget : id.data.get? 4 = some '_' := by
        simp only [isSuffixedId, Bool.and_eq_true, beq_iff_eq] at hs
        exact hs.1.2
      exact List.get?_mem hget
    have hc : id.data.contains '_' = true := by
      have : id.data.contains '_' := List.contains_iff_exists_mem_beq.mpr ⟨'_', hmem, by simp⟩
      exact this
    constructor
    · simp only [formatIdUpdate, htr, Bool.not_true, Bool.false_eq_true, if_false,
        hrt, hc, Bool.not_true, Bool.and_false, if_false]
    · simp [finalizeId, suffixed_not_base hs, hs]

/-- Witness for C2's amended theorem at `id = "ab12"`, `r = 55`. -/
theorem c2_client_host_equiv_base_witness :
    formatIdUpdate (fun _ => "eeee") (some 55) (some (.vstr "ab12")) 3
      = .ok (some (.vstr (finalizeId "ab12" 55)), true, 3) :=
  (c2_client_host_equiv_base "ab12" 55 (fun _ => "eeee") 3 (by decide)).1 (by decide)

-- Embedding sanity checks.
example :
    (validateBlock (.mk (some "tpgb/tp-heading")
      (some (.vobj [("block_id", .vstr "ab12")])) none (some "<h2>x</h2>") none)).1
      = { valid := true, errors := [], warnings := [] } := rfl

example :
    (validateBlock (.mk (some "tpgb/tp-heading") (some (.vobj [])) none (some "x") none)).1
      = { valid := false, errors := [missingBlockIdError], warnings := [] } := rfl

example :
    (validateBlocks [.mk (some "tpgb/tp-heading") (some (.vobj [])) none (some "x") none]).1.errors
      = [⟨.MISSING_BLOCK_ID, some "blocks[0].attrs.block_id"⟩] := rfl

/-- C4, counterexample.  For a tree whose invalid attribute sits at
`blocks[1].innerBlocks[0].attrs.foo`, the schema-aware validator emits its
error with field path `"blocks[1].innerBlocks[0].foo"` — the attribute name
is appended directly to the block path, without the `attrs.` segment the
claim requires — and no error carries the claimed path. -/
theorem c4_path_counterexample :
    (validateBlocksWithSchemas rtAny [cexCore4, cexParent4] cexSchemas4).1.errors
      = [⟨.TYPE_MISMATCH, some "blocks[1].innerBlocks[0].foo"⟩] ∧
    ((validateBlocksWithSchemas rtAny [cexCore4, cexParent4] cexSchemas4).1.errors.all
      (fun e => !(e.field == some "blocks[1].innerBlocks[0].attrs.foo"))) = true := by
  exact ⟨rfl, rfl⟩

/-- C4, amended.  Errors are re-rooted as claimed — child errors carrying a
field get the `innerBlocks[i]` prefix relative to their parent up to the root
`blocks[i]` prefix (part 3: every error of `validateBlocks` has a field
starting with `blocks[i]`) — but the exact path shape depends on the error
class: a structural identifier error at `blocks[1].innerBlocks[0]` has field
exactly `blocks[1].innerBlocks[0].attrs.block_id` (part 2), while a
schema-attribute error for `foo` at the same position has field
`blocks[1].innerBlocks[0].foo`, without an `attrs.` segment (part 1). -/
theorem c4_path_rerooting (bs : List Block) (e : SErr)
    (he : e ∈ (validateBlocks bs).1.errors) :
    (validateBlocksWithSchemas rtAny [cexCore4, cexParent4] cexSchemas4).1.errors
      = [⟨.TYPE_MISMATCH, some "blocks[1].innerBlocks[0].foo"⟩] ∧
    (validateBlocks [cexCore4, cexParentBad4]).1.errors
      = [⟨.INVALID_BLOCK_ID_FORMAT, some "blocks[1].innerBlocks[0].attrs.block_id"⟩] ∧
    ∃ (i : Nat) (rest : String),
      e.field = some ("blocks[" ++ Nat.repr i ++ "]" ++ rest) := by
  refine ⟨rfl, rfl, ?_⟩
  have main : ∀ (start : Nat) (l : List Block) (x : SErr),
      x ∈ (blocksLoop start l).1 →
      ∃ (i : Nat) (rest : String),
        x.field = some ("blocks[" ++ Nat.repr i ++ "]" ++ rest) := by
    intro start l
    induction l generalizing start with
    | nil => intro x hx; simp [blocksLoop] at hx
    | cons b bs ih =>
      intro x hx
      simp only [blocksLoop, List.mem_append] at hx
      rcases hx with hx | hx
      · rcases List.mem_map.mp hx with ⟨e0, _, rfl⟩
        cases hf : e0.field with
        | some f =>
          refine ⟨start, "." ++ f, ?_⟩
          simp only [blocksPrefix, hf, String.append_assoc, Option.some.injEq]
        | none =>
          refine ⟨start, "", ?_⟩
          simp [blocksPrefix, hf]
      · exact ih (start + 1) x hx
  have : e ∈ (blocksLoop 0 bs).1 := by
    simpa [validateBlocks] using he
  exact main 0 bs e this

/-- Witness for C4's amended theorem: the single error of the structural
counterexample tree is itself rooted at a `blocks[i]` path. -/
theorem c4_path_rerooting_witness :
    ∃ (i : Nat) (rest : String),
      (⟨.INVALID_BLOCK_ID_FORMAT, some "blocks[1].innerBlocks[0].attrs.block_id"⟩ : SErr).field
        = some ("blocks[" ++ Nat.repr i ++ "]" ++ rest) :=
  (c4_path_rerooting [cexCore4, cexParentBad4]
    ⟨.INVALID_BLOCK_ID_FORMAT, some "blocks[1].innerBlocks[0].attrs.block_id"⟩
    (by rw [(rfl :
        (validateBlocks [cexCore4, cexParentBad4]).1.errors
          = [⟨.INVALID_BLOCK_ID_FORMAT, some "blocks[1].innerBlocks[0].attrs.block_id"⟩])]
        ; exact List.mem_singleton.mpr rfl)).2.2

/-! ## C9: validator purity -/
mutual

/-- The structural validator returns the tree it was given: no step of
`validateBlock` writes into the input (the rebuilt post-call tree equals the
input). -/
theorem validateBlock_after (b : Block) : (validateBlock b).2 = b := by
  cases b with
  | mk bn attrs inner ih ic =>
    cases inner with
    | none => simp [validateBlock]
    | some s =>
      cases s with
      | inr t => simp [validateBlock]
      | inl cs => simp [validateBlock, validateChildren_after 0 cs]

theorem validateChildren_after (i : Nat) (cs : List Block) :
    (validateChildren i cs).2.2 = cs := by
  cases cs with
  | nil => simp [validateChildren]
  | cons c cs' =>
    simp [validateChildren, validateBlock_after c, validateChildren_after (i + 1) cs']

end

theorem blocksLoop_after (i : Nat) (bs : List Block) : (blocksLoop i bs).2.2 = bs := by
  induction bs generalizing i with
  | nil => simp [blocksLoop]
  | cons b bs ih => simp [blocksLoop, validateBlock_after b, ih]

/-- C9.  Validation never changes the input tree: the plain entry points
(`validateBlock`, `validateBlocks`) and the schema-aware one
(`validateBlocksWithSchemas`) all return the tree exactly as given. -/
theorem c9_validator_purity (b : Block) (bs : List Block)
    (rt : String → String → Bool) (schemas : List (String × Schema0)) :
    (validateBlock b).2 = b ∧
    (validateBlocks bs).2 = bs ∧
    (validateBlocksWithSchemas rt bs schemas).2 = bs := by
  refine ⟨validateBlock_after b, ?_, ?_⟩
  · show (blocksLoop 0 bs).2.2 = bs
    exact blocksLoop_after 0 bs
  · show (blocksLoop 0 bs).2.2 = bs
    exact blocksLoop_after 0 bs

/-! ## C10: `valid` ↔ no errors -/
/-- C10.  Every `ValidationResult` produced by any entry point has
`valid = true` exactly when its error list is empty; warnings play no part
(the non-array early return of `validateBlocks` included). -/
theorem c10_valid_iff_errors_empty (b : Block) (bs : List Block)
    (rt : String → String → Bool) (schemas : List (String × Schema0))
    (sc : Option Schema0) (inp : List Block ⊕ AVal) :
    (validateBlock b).1.valid = (validateBlock b).1.errors.isEmpty ∧
    (validateBlocks bs).1.valid = (validateBlocks bs).1.errors.isEmpty ∧
    (validateBlockAgainstSchema rt b sc).valid
      = (validateBlockAgainstSchema rt b sc).errors.isEmpty ∧
    (validateBlocksWithSchemas rt bs schemas).1.valid
      = (validateBlocksWithSchemas rt bs schemas).1.errors.isEmpty ∧
    (validateBlocksInput inp).valid = (validateBlocksInput inp).errors.isEmpty := by
  refine ⟨?_, rfl, ?_, rfl, ?_⟩
  · cases b with
    | mk bn attrs inner ih ic => rfl
  · cases sc with
    | none => rfl
    | some s =>
      cases s with
      | mk attrs =>
        cases attrs with
        | none => rfl
        | some l => rfl
  · cases inp with
    | inl l => rfl
    | inr v => rfl

theorem htmlWarns_shape (bn : Option String) (attrs : Option AVal)
    (ih : Option String) : ∀ w ∈ htmlWarns bn attrs ih, isHtmlWarn w = true := by
  intro w hw
  simp only [htmlWarns] at hw
  split at hw
  · simp only [List.mem_singleton] at hw
    subst hw
    rfl
  · simp at hw

mutual

/-- Every warning the structural validator emits for a block (its own or a
descendant's) is a missing-`innerHTML` warning. -/
theorem validateBlock_warns_html (b : Block) :
    ∀ w ∈ (validateBlock b).1.warnings, isHtmlWarn w = true := by
  cases b with
  | mk bn attrs inner ih ic =>
    cases inner with
    | none =>
      intro w hw
      simp only [validateBlock] at hw
      rcases (List.mem_append.mp hw) with h | h
      · simp at h
      · exact htmlWarns_shape bn attrs ih w h
    | some s =>
      cases s with
      | inr t =>
        intro w hw
        simp only [validateBlock] at hw
        rcases (List.mem_append.mp hw) with h | h
        · simp at h
        · exact htmlWarns_shape bn attrs ih w h
      | inl cs =>
        intro w hw
        simp only [validateBlock] at hw
        rcases (List.mem_append.mp hw) with h | h
        · exact validateChildren_warns_html 0 cs w h
        · exact htmlWarns_shape bn attrs ih w h

theorem validateChildren_warns_html (i : Nat) (cs : List Block) :
    ∀ w ∈ (validateChildren i cs).2.1, isHtmlWarn w = true := by
  cases cs with
  | nil => intro w hw; simp [validateChildren] at hw
  | cons c cs' =>
    intro w hw
    simp only [validateChildren] at hw
    rcases (List.mem_append.mp hw) with h | h
    · exact validateBlock_warns_html c w h
    · exact validateChildren_warns_html (i + 1) cs' w h

end

theorem blocksLoop_warns_html (i : Nat) (bs : List Block) :
    ∀ w ∈ (blocksLoop i bs).2.1, isHtmlWarn w = true := by
  induction bs generalizing i with
  | nil => intro w hw; simp [blocksLoop] at hw
  | cons b bs ih =>
    intro w hw
    simp only [blocksLoop] at hw
    rcases (List.mem_append.mp hw) with h | h
    · exact validateBlock_warns_html b w h
    · exact ih (i + 1) w h

/-- Elements kept by the Set-dedup were not seen before. -/
theorem jsSetDedupGo_notSeen : ∀ (xs seen : List AVal) (y : AVal),
    y ∈ jsSetDedupGo seen xs → seen.any (avalBeq y) = false := by
  intro xs
  induction xs with
  | nil => intro seen y hy; simp [jsSetDedupGo] at hy
  | cons x rest ih =>
    intro seen y hy
    simp only [jsSetDedupGo] at hy
    by_cases hc : seen.any (avalBeq x) = true
    · rw [if_pos hc] at hy
      exact ih seen y hy
    · rw [if_neg hc] at hy
      rcases List.mem_cons.mp hy with rfl | hy'
      · simpa using hc
      · have := ih (seen ++ [x]) y hy'
        rw [List.any_append] at this
        exact (Bool.or_eq_false_iff.mp this).1

/-- The Set-dedup names each value once: no two kept elements are
`===`-equal. -/
theorem jsSetDedup_pairwise : ∀ (xs seen : List AVal),
    List.Pairwise (fun a b => avalBeq b a = false) (jsSetDedupGo seen xs) := by
  intro xs
  induction xs with
  | nil => intro seen; simp [jsSetDedupGo]
  | cons x rest ih =>
    intro seen
    simp only [jsSetDedupGo]
    by_cases hc : seen.any (avalBeq x) = true
    · rw [if_pos hc]
      exact ih seen
    · rw [if_neg hc]
      refine List.pairwise_cons.mpr ⟨?_, ih (seen ++ [x])⟩
      intro y hy
      have := jsSetDedupGo_notSeen rest (seen ++ [x]) y hy
      rw [List.any_append] at this
      have h2 := (Bool.or_eq_false_iff.mp this).2
      simpa using h2

/-- C7, counterexample.  The validator does not collect identifiers from the
whole tree: a parent and its nested child both carry `"ab12"`, yet
validation emits zero warnings (and zero errors) — the claim requires
exactly one duplicate warning for a value occurring twice anywhere in the
tree. -/
theorem c7_deep_duplicate_counterexample :
    blockIdOf cexDupParent7 = some (.vstr "ab12") ∧
    blockIdOf cexDupChild7 = some (.vstr "ab12") ∧
    (validateBlocks [cexDupParent7]).1.warnings = [] ∧
    (validateBlocks [cexDupParent7]).1.errors = [] :=
  ⟨rfl, rfl, rfl, rfl⟩

/-- C7, amended.  The duplicate-identifier check runs over top-level blocks
only: whenever the top-level identifier list has a repeated value there is
exactly one duplicate warning (otherwise none), that warning names each
duplicated value once (no two named values are `===`-equal), duplication
produces no errors (two siblings sharing `"ab12"` yield a valid result with
exactly one warning), and nested duplicates produce no warning at all. -/
theorem c7_duplicate_warnings (bs : List Block) :
    ((validateBlocks bs).1.warnings.countP (fun w => isDupWarn w)
      = if (jsDuplicates (topBlockIds bs)).isEmpty then 0 else 1) ∧
    List.Pairwise (fun a b => avalBeq b a = false)
      (jsSetDedup (jsDuplicates (topBlockIds bs))) ∧
    (validateBlocks [cexSib7a, cexSib7b]).1
      = { valid := true, errors := [], warnings := [Warn.dupIds ["ab12"]] } ∧
    (validateBlocks [cexDupParent7]).1.warnings = [] := by
  refine ⟨?_, jsSetDedup_pairwise _ [], rfl, rfl⟩
  show ((blocksLoop 0 bs).2.1 ++ _).countP _ = _
  rw [List.countP_append]
  have h0 : (blocksLoop 0 bs).2.1.countP (fun w => isDupWarn w) = 0 := by
    rw [List.countP_eq_zero]
    intro w hw
    have := blocksLoop_warns_html 0 bs w hw
    cases w <;> simp_all [isHtmlWarn, isDupWarn]
  rw [h0, blocksLoop_after]
  by_cases hd : (jsDuplicates (topBlockIds bs)).isEmpty = true
  · rw [if_pos hd, if_pos hd]
    rfl
  · rw [if_neg hd, if_neg hd]
    rfl

-- Embedding sanity check: the spec's end-to-end scenario at the top level.
example :
    validateAndFix (fun _ => "ffff")
      [.mk (some "tpgb/tp-heading") (some (.vobj [])) none (some "h") none]
      = .ok ⟨true, [.mk (some "tpgb/tp-heading")
          (some (.vobj [("block_id", .vstr "ffff")])) none (some "h") none],
          [], [], ["Block 0: Generated block_id: ffff"]⟩ := rfl

theorem nameErrs_shape (bn : Option String) :
    ∀ e ∈ nameErrs bn, e.field = some "blockName" ∨ e.field = none := by
  intro e he
  cases bn with
  | none => simp [nameErrs, missingFieldError] at he; simp [he]
  | some s =>
    simp only [nameErrs] at he
    split at he
    · simp [missingFieldError] at he; simp [he]
    · split at he
      · simp [invalidBlockNameError] at he; simp [he]
      · simp at he

theorem attrsErrs_shape (a : Option AVal) :
    ∀ e ∈ attrsErrs a, e.field = some "attrs" := by
  intro e he
  cases a with
  | none => simp [attrsErrs, missingFieldError] at he; simp [he]
  | some v =>
    simp only [attrsErrs] at he
    split at he
    · simp [missingFieldError] at he; simp [he]
    · split at he
      · simp [validationError] at he; simp [he]
      · simp at he

theorem idErrs_shape (bn : Option String) (a : Option AVal) :
    ∀ e ∈ idErrs bn a, e.field = some "attrs.block_id" := by
  intro e he
  simp only [idErrs] at he
  split at he
  · split at he
    · simp [missingBlockIdError] at he; simp [he]
    · split at he
      · simp [missingBlockIdError] at he; simp [he]
      · split at he
        · simp [invalidBlockIdError] at he; simp [he]
        · simp at he
  · simp at he

theorem idErrs_missing_mem (bn : Option String) (a : Option AVal)
    (h : (⟨.MISSING_BLOCK_ID, some "attrs.block_id"⟩ : SErr) ∈ idErrs bn a) :
    isTpgb bn = true ∧ truthyOpt (bidOf a) = false := by
  simp only [idErrs] at h
  split at h
  case isTrue ht =>
    refine ⟨ht, ?_⟩
    split at h
    case h_1 hb => simp [truthyOpt, hb]
    case h_2 v hb =>
      split at h
      case isTrue hv => simp [truthyOpt, hb]; simpa using hv
      case isFalse hv =>
        split at h
        · simp [invalidBlockIdError] at h
        · simp at h
  case isFalse => simp at h

theorem validateBlock_errors_eq (bn : Option String) (attrs : Option AVal)
    (inner : Option (List Block ⊕ Bool)) (ih : Option String)
    (ic : Option (List (Option String))) :
    (validateBlock (.mk bn attrs inner ih ic)).1.errors
      = nameErrs bn ++ attrsErrs attrs ++ idErrs bn attrs ++ innerErrsOf inner := by
  cases inner with
  | none => rfl
  | some s => cases s with
    | inl cs => rfl
    | inr t => rfl

theorem validateChildren_err_shape (i : Nat) (cs : List Block) :
    ∀ e ∈ (validateChildren i cs).1,
      e.field = none ∨ ∃ t : String, e.field = some ("innerBlocks[" ++ t) := by
  induction cs generalizing i with
  | nil => intro e he; simp [validateChildren] at he
  | cons c cs' ih =>
    intro e he
    simp only [validateChildren] at he
    rcases List.mem_append.mp he with h | h
    · rcases List.mem_map.mp h with ⟨e0, _, rfl⟩
      cases hf : e0.field with
      | none => left; simp [innerPrefix, hf]
      | some f =>
        right
        refine ⟨Nat.repr i ++ ("]." ++ f), ?_⟩
        simp [innerPrefix, hf, String.append_assoc]
    · exact ih (i + 1) e h

theorem innerErrsOf_shape (inner : Option (List Block ⊕ Bool)) :
    ∀ e ∈ innerErrsOf inner,
      e.field = none ∨ e.field = some "innerBlocks" ∨
      ∃ t : String, e.field = some ("innerBlocks[" ++ t) := by
  intro e he
  cases inner with
  | none => simp [innerErrsOf] at he
  | some s =>
    cases s with
    | inl cs =>
      rcases validateChildren_err_shape 0 cs e he with h | h
      · exact Or.inl h
      · exact Or.inr (Or.inr h)
    | inr t =>
      simp only [innerErrsOf] at he
      split at he
      · simp [validationError] at he
        right; left; simp [he]
      · simp at he

/-- A path that begins with `innerBlocks[` is neither `attrs` nor
`attrs.block_id`. -/
theorem innerStr_ne (t : String) :
    ("innerBlocks[" ++ t : String) ≠ "attrs" ∧
    ("innerBlocks[" ++ t : String) ≠ "attrs.block_id" := by
  constructor
  · intro h
    have h2 : some 'i' = some 'a' := congrArg (fun s => s.data.head?) h
    simp at h2
  · intro h
    have h2 : some 'i' = some 'a' := congrArg (fun s => s.data.head?) h
    simp at h2

/-- Reading back an appended key when it was absent. -/
theorem olook_append_new (k : String) (v : AVal) :
    ∀ fs : List (String × AVal), fs.any (fun p => p.1 == k) = false →
      olook (fs ++ [(k, v)]) k = some v := by
  intro fs
  induction fs with
  | nil => intro _; simp [olook, List.find?]
  | cons p fs' ih =>
    intro hany
    have hp : (p.1 == k) = false := by
      cases hx : p.1 == k
      · rfl
      · simp [List.any_cons, hx] at hany
    have h2 : fs'.any (fun q => q.1 == k) = false := by
      simpa [List.any_cons, hp] using hany
    simp only [List.cons_append]
    simpa [olook, List.find?, hp] using ih h2

/-- Reading back an in-place replaced key. -/
theorem olook_map_replace (k : String) (v : AVal) :
    ∀ fs : List (String × AVal), fs.any (fun p => p.1 == k) = true →
      olook (fs.map (fun p => if p.1 == k then (p.1, v) else p)) k = some v := by
  intro fs
  induction fs with
  | nil => intro h; simp at h
  | cons p fs' ih =>
    intro hany
    by_cases hp : (p.1 == k) = true
    · simp [olook, List.find?, hp]
    · have hp' : (p.1 == k) = false := by
        cases hx : p.1 == k
        · rfl
        · exact absurd hx hp
      have h2 : fs'.any (fun q => q.1 == k) = true := by
        simpa [List.any_cons, hp'] using hany
      simp only [List.map_cons, if_neg (by simpa using hp')]
      simpa [olook, List.find?, hp'] using ih h2

/-- Writing a key and reading it back. -/
theorem olook_oset (fs : List (String × AVal)) (k : String) (v : AVal) :
    olook (oset fs k v) k = some v := by
  simp only [oset]
  split
  case isTrue hany => exact olook_map_replace k v fs hany
  case isFalse hany =>
    have hany2 : fs.any (fun p => p.1 == k) = false := by
      cases hx : fs.any (fun p => p.1 == k)
      · rfl
      · exact absurd hx hany
    exact olook_append_new k v fs hany2

theorem afStep3_good (a : Option AVal) : attrsErrs (afStep3 a).1 = [] := by
  cases a with
  | none => rfl
  | some v =>
    simp only [afStep3]
    split
    · rfl
    case isFalse h =>
      have h' : (!(truthy v) || !(jsTypeof v == "string"  )) = false → True := fun _ => trivial
      have hb : (!(truthy v) || !(jsTypeof v == "object")) = false := by
        cases hx : (!(truthy v) || !(jsTypeof v == "object"))
        · rfl
        · exact absurd hx h
      rcases Bool.or_eq_false_iff.mp hb with ⟨h1, h2⟩
      have ht : truthy v = true := by simpa using h1
      have ho : (jsTypeof v == "object") = true := by simpa using h2
      simp [attrsErrs, ht, ho]

theorem badTopErr_cases (e : SErr) (h : badTopErr e = true) :
    (e.code = .MISSING_BLOCK_ID ∧ e.field = some "attrs.block_id") ∨
    e.field = some "attrs" := by
  simp only [badTopErr, Bool.or_eq_true, Bool.and_eq_true, beq_iff_eq] at h
  exact h

/-- After a successful `autoFixBlock`, the fixed block's own validation has
no identifier-missing error (when one could have been present before) and no
`attrs` error. -/
theorem autoFixBlock_clears (bn : Option String) (attrs : Option AVal)
    (inner : Option (List Block ⊕ Bool)) (ih : Option String)
    (ic : Option (List (Option String))) (g : String)
    (hg : isBaseId g = true)
    (hsafe : autoFixSafe (.mk bn attrs inner ih ic) = true) :
    ∃ fb ch, autoFixBlock g (.mk bn attrs inner ih ic) = .ok (fb, ch) ∧
      ∀ e ∈ (validateBlock (.mk bn attrs inner ih ic)).1.errors,
        badTopErr e = true → e ∉ (validateBlock fb).1.errors := by
  have hgs : truthy (.vstr g) = true := by
    simp only [isBaseId, Bool.and_eq_true, beq_iff_eq] at hg
    have : g ≠ "" := by
      intro e
      rw [e] at hg
      simp at hg
    simp [truthy, this]
  have hgv : isValidBlockId g = true := by
    simp only [isBaseId, Bool.and_eq_true, beq_iff_eq] at hg
    simp [isValidBlockId, isBaseId, hg]
  by_cases hcond : (isTpgb bn && !(truthyOpt (bidOf attrs))) = true
  · -- fix step (a) runs: under `autoFixSafe`, attrs is falsy or an object
    have hattrs : ∃ fs : List (String × AVal),
        afStep1 g bn attrs = .ok (some (.vobj (oset fs "block_id" (.vstr g))),
          ["Generated block_id: " ++ g]) := by
      simp only [autoFixSafe, Block.blockName, Block.attrs, hcond, if_true] at hsafe
      cases attrs with
      | none => exact ⟨[], by simp [afStep1, hcond, setBlockId, bind, Except.bind, pure, Except.pure]⟩
      | some v =>
        by_cases htv : truthy v = true
        · cases v with
          | vobj fs =>
            exact ⟨fs, by simp [afStep1, hcond, htv, setBlockId, bind, Except.bind, pure, Except.pure]⟩
          | vnull => simp [truthy] at htv
          | vbool b => simp_all [truthy]
          | vnum n => simp_all [truthy]
          | vstr s => simp_all [truthy]
          | varr xs => simp_all [truthy]
        · have htv' : truthy v = false := by
            cases hx : truthy v
            · rfl
            · exact absurd hx htv
          exact ⟨[], by simp [afStep1, hcond, htv', setBlockId, bind, Except.bind, pure, Except.pure]⟩
    rcases hattrs with ⟨fs, hs1⟩
    have hbn : afStep2 bn = (bn, []) := by
      have : isTpgb bn = true := by
        rcases Bool.and_eq_true_iff.mp hcond with ⟨h1, _⟩
        exact h1
      cases bn with
      | none => simp [isTpgb] at this
      | some s =>
        have hss : strStarts s "tpgb/" = true := by simpa [isTpgb] using this
        simp [afStep2, hss]
    have heq : autoFixBlock g (.mk bn attrs inner ih ic)
        = .ok (.mk bn (some (.vobj (oset fs "block_id" (.vstr g))))
            (afStep4 inner).1 ih ic,
          ["Generated block_id: " ++ g] ++ (afStep4 inner).2) := by
      simp only [autoFixBlock, hs1, bind, Except.bind, hbn]
      simp [afStep3, truthy, jsTypeof, pure, Except.pure]
    refine ⟨_, _, heq, ?_⟩
    · intro e _ hbad hmem
      rw [validateBlock_errors_eq] at hmem
      have hattrsErrs : attrsErrs (some (.vobj (oset fs "block_id" (.vstr g)))) = [] := by
        simp [attrsErrs, truthy, jsTypeof]
      have hidErrs : idErrs bn (some (.vobj (oset fs "block_id" (.vstr g)))) = [] := by
        have hbid : bidOf (some (.vobj (oset fs "block_id" (.vstr g))))
            = some (.vstr g) := by
          simp [bidOf, olookA, olook_oset]
        simp [idErrs, hbid, hgs, blockIdStr, AVal.disp, hgv]
      rw [hattrsErrs, hidErrs] at hmem
      simp only [List.append_nil, List.nil_append, List.mem_append] at hmem
      rcases badTopErr_cases e hbad with ⟨_, hf⟩ | hf <;>
        rcases hmem with hm | hm
      · rcases nameErrs_shape bn e hm with h | h <;> rw [hf] at h <;> simp at h
      · rcases innerErrsOf_shape _ e hm with h | h | ⟨t, h⟩ <;> rw [hf] at h
        · simp at h
        · simp at h
        · exact (innerStr_ne t).2 (Option.some.inj h).symm
      · rcases nameErrs_shape bn e hm with h | h <;> rw [hf] at h <;> simp at h
      · rcases innerErrsOf_shape _ e hm with h | h | ⟨t, h⟩ <;> rw [hf] at h
        · simp at h
        · simp at h
        · exact (innerStr_ne t).1 (Option.some.inj h).symm
  · -- fix step (a) does not run
    have hs1 : afStep1 g bn attrs = .ok (attrs, []) := by
      have hc : (isTpgb bn && !(truthyOpt (bidOf attrs))) = false := by
        cases hx : (isTpgb bn && !(truthyOpt (bidOf attrs)))
        · rfl
        · exact absurd hx hcond
      simp [afStep1, hc, pure, Except.pure]
    have heq : autoFixBlock g (.mk bn attrs inner ih ic)
        = .ok (.mk (afStep2 bn).1 (afStep3 attrs).1 (afStep4 inner).1 ih ic,
          (afStep2 bn).2 ++ (afStep3 attrs).2 ++ (afStep4 inner).2) := by
      simp [autoFixBlock, hs1, bind, Except.bind, pure, Except.pure]
    refine ⟨_, _, heq, ?_⟩
    · intro e hor hbad hmem
      rw [validateBlock_errors_eq] at hmem
      rw [afStep3_good attrs] at hmem
      simp only [List.append_nil, List.nil_append, List.mem_append] at hmem
      rcases badTopErr_cases e hbad with ⟨hc, hf⟩ | hf
      · -- an identifier-missing error could only have come from a governed
        -- block with a falsy id, contradicting the case split
        rw [validateBlock_errors_eq] at hor
        simp only [List.mem_append] at hor
        have he2 : e = ⟨.MISSING_BLOCK_ID, some "attrs.block_id"⟩ := by
          cases e
          simp_all
        rcases hor with ((h | h) | h) | h
        · rcases nameErrs_shape bn e h with hh | hh <;> rw [hf] at hh <;> simp at hh
        · have := attrsErrs_shape attrs e h
          rw [hf] at this
          simp at this
        · rcases idErrs_missing_mem bn attrs (he2 ▸ h) with ⟨h1, h2⟩
          apply hcond
          simp [h1, h2]
        · rcases innerErrsOf_shape inner e h with hh | hh | ⟨t, hh⟩ <;> rw [hf] at hh
          · simp at hh
          · simp at hh
          · exact (innerStr_ne t).2 (Option.some.inj hh).symm
      · rcases hmem with (hm | hm) | hm
        · rcases nameErrs_shape (afStep2 bn).1 e hm with h | h <;> rw [hf] at h <;> simp at h
        · have := idErrs_shape (afStep2 bn).1 (afStep3 attrs).1 e hm
          rw [hf] at this
          simp at this
        · rcases innerErrsOf_shape (afStep4 inner).1 e hm with h | h | ⟨t, h⟩ <;> rw [hf] at h
          · simp at h
          · simp at h
          · exact (innerStr_ne t).1 (Option.some.inj h).symm

theorem afLoop_ok (gen : Nat → String) :
    ∀ (bs : List Block) (start : Nat),
      (∀ n, isBaseId (gen n) = true) →
      (∀ b ∈ bs, autoFixSafe b = true) →
      ∃ fbs fixes, afLoop gen start bs = .ok (fbs, fixes) ∧
        List.Forall₂ (fun b fb =>
          ∀ e ∈ (validateBlock b).1.errors, badTopErr e = true →
            e ∉ (validateBlock fb).1.errors) bs fbs := by
  intro bs
  induction bs with
  | nil => intro start _ _; exact ⟨[], [], rfl, List.Forall₂.nil⟩
  | cons b bs' ih =>
    intro start hg hs
    have h1 : ∃ fb ch, autoFixBlock (gen start) b = .ok (fb, ch) ∧
        ∀ e ∈ (validateBlock b).1.errors, badTopErr e = true →
          e ∉ (validateBlock fb).1.errors := by
      cases b with
      | mk bn attrs inner ihh ic =>
        exact autoFixBlock_clears bn attrs inner ihh ic (gen start) (hg start)
          (hs _ (by simp))
    obtain ⟨fb, ch, hab, hclear⟩ := h1
    obtain ⟨fbs, fixes, hrec, hforall⟩ :=
      ih (start + 1) hg (fun x hx => hs x (by simp [hx]))
    refine ⟨fb :: fbs,
      (if ch.isEmpty then []
       else ["Block " ++ Nat.repr start ++ ": " ++ String.intercalate ", " ch]) ++ fixes,
      ?_, List.Forall₂.cons hclear hforall⟩
    simp [afLoop, hab, hrec, bind, Except.bind, pure, Except.pure]

/-- C5, counterexample.  Auto-fix does not recurse: a nested block missing
its identifier produces a `MISSING_BLOCK_ID` error, `autoFix` succeeds with
no changes, and re-validating the "fixed" tree yields the very same
identifier-missing error — contradicting the claim for blocks nested below
the top level. -/
theorem c5_nested_counterexample :
    (validateBlocks [cexNest5]).1.errors
      = [⟨.MISSING_BLOCK_ID, some "blocks[0].innerBlocks[0].attrs.block_id"⟩] ∧
    validateAndFix (fun _ => "ffff") [cexNest5]
      = .ok ⟨false, [cexNest5],
          [⟨.MISSING_BLOCK_ID, some "blocks[0].innerBlocks[0].attrs.block_id"⟩],
          [], []⟩ :=
  ⟨rfl, rfl⟩

/-- C5, amended.  Auto-fix convergence holds for top-level blocks only: for
every tree whose top-level blocks are `autoFixSafe` (not governed blocks
whose missing identifier sits beside a truthy non-object `attrs`) and every
4-hex generator output, `validateAndFix` succeeds, its errors are exactly
the re-validation of the fixed blocks, and for each top-level block, every
identifier-missing (`MISSING_BLOCK_ID` at `attrs.block_id`) and
attrs-not-object (field `attrs`) error of the original block's own
validation is absent from the fixed block's validation.  (Blocks nested at
depth ≥ 1 are not fixed — see the counterexample.) -/
theorem c5_autofix_toplevel (bs : List Block) (gen : Nat → String)
    (hg : ∀ n, isBaseId (gen n) = true)
    (hs : ∀ b ∈ bs, autoFixSafe b = true) :
    ∃ res, validateAndFix gen bs = .ok res ∧
      res.errors = (validateBlocks res.blocks).1.errors ∧
      List.Forall₂ (fun b fb =>
        ∀ e ∈ (validateBlock b).1.errors, badTopErr e = true →
          e ∉ (validateBlock fb).1.errors) bs res.blocks := by
  obtain ⟨fbs, fixes, hloop, hforall⟩ := afLoop_ok gen bs 0 hg hs
  refine ⟨⟨(validateBlocks fbs).1.valid, fbs, (validateBlocks fbs).1.errors,
      (validateBlocks fbs).1.warnings, fixes⟩, ?_, rfl, hforall⟩
  simp [validateAndFix, hloop, bind, Except.bind, pure, Except.pure]

/-- Witness for C5's amended theorem on a one-block tree with a missing
identifier. -/
theorem c5_autofix_toplevel_witness :
    ∃ res, validateAndFix (fun _ => "ffff") [cexNest5Child] = .ok res ∧
      res.errors = (validateBlocks res.blocks).1.errors ∧
      List.Forall₂ (fun b fb =>
        ∀ e ∈ (validateBlock b).1.errors, badTopErr e = true →
          e ∉ (validateBlock fb).1.errors) [cexNest5Child] res.blocks :=
  c5_autofix_toplevel [cexNest5Child] (fun _ => "ffff")
    (fun _ => show isBaseId "ffff" = true by decide)
    (by
      intro b hb
      rw [List.mem_singleton] at hb
      subst hb
      decide)

theorem fmtAttrsOk_parts (postId : Option Nat) (av : AVal)
    (h : fmtAttrsOk postId (some av) = true) :
    truthy av = true ∧ ∃ s0 : String,
      olookA av "block_id" = some (.vstr s0) ∧ (s0 != "") = true ∧
      (!(postIdT postId) || s0.data.contains '_') = true := by
  simp only [fmtAttrsOk, Bool.and_eq_true] at h
  refine ⟨h.1, ?_⟩
  have h2 := h.2
  cases hb : olookA av "block_id" with
  | none => rw [hb] at h2; simp at h2
  | some v =>
    cases v with
    | vstr s0 =>
      rw [hb] at h2
      rw [Bool.and_eq_true] at h2
      exact ⟨s0, rfl, h2.1, h2.2⟩
    | vnull => rw [hb] at h2; simp at h2
    | vbool b' => rw [hb] at h2; simp at h2
    | vnum n => rw [hb] at h2; simp at h2
    | varr xs => rw [hb] at h2; simp at h2
    | vobj fs => rw [hb] at h2; simp at h2

theorem fmtStable_parts_none (postId : Option Nat) (bn : Option String)
    (attrs : Option AVal) (ih : Option String) (ic : Option (List (Option String)))
    (h : fmtStable postId (.mk bn attrs none ih ic) = true) :
    (!(strFalsy bn)) = true ∧ fmtAttrsOk postId attrs = true := by
  simp only [fmtStable, Bool.and_eq_true] at h
  exact ⟨h.1.1, h.1.2⟩

theorem fmtStable_parts_inr (postId : Option Nat) (bn : Option String)
    (attrs : Option AVal) (t : Bool) (ih : Option String)
    (ic : Option (List (Option String)))
    (h : fmtStable postId (.mk bn attrs (some (.inr t)) ih ic) = true) :
    (!(strFalsy bn)) = true ∧ fmtAttrsOk postId attrs = true ∧ t = false := by
  simp only [fmtStable, Bool.and_eq_true] at h
  exact ⟨h.1.1, h.1.2, by simpa using h.2⟩

theorem fmtStable_parts_inl (postId : Option Nat) (bn : Option String)
    (attrs : Option AVal) (cs : List Block) (ih : Option String)
    (ic : Option (List (Option String)))
    (h : fmtStable postId (.mk bn attrs (some (.inl cs)) ih ic) = true) :
    (!(strFalsy bn)) = true ∧ fmtAttrsOk postId attrs = true ∧
    fmtStableList postId cs = true := by
  simp only [fmtStable, Bool.and_eq_true] at h
  exact ⟨h.1.1, h.1.2, h.2⟩

/-- The id-update step writes nothing on a format-stable `attrs`. -/
theorem formatIdUpdate_stable (g : Nat → String) (postId : Option Nat)
    (av : AVal) (c : Nat) (h : fmtAttrsOk postId (some av) = true) :
    ∃ s0 : String, olookA av "block_id" = some (.vstr s0) ∧
      formatIdUpdate g postId (olookA av "block_id") c
        = .ok (some (.vstr s0), false, c) := by
  obtain ⟨_, s0, hb, hs0, hcond⟩ := fmtAttrsOk_parts postId av h
  refine ⟨s0, hb, ?_⟩
  rw [hb]
  have htr : truthyOpt (some (.vstr s0)) = true := by
    simpa [truthyOpt, truthy] using hs0
  have hc2 : (postIdT postId && !(s0.data.contains '_')) = false := by
    cases hp : postIdT postId
    · rfl
    · rw [hp] at hcond
      simp only [Bool.not_true, Bool.false_or] at hcond
      rw [hcond]
      rfl
  simp [formatIdUpdate, htr, hc2]
  intro hp
  rw [hp] at hcond
  simp only [Bool.not_true, Bool.false_or] at hcond
  simpa using hcond

mutual

/-- On format-stable input, `formatBlock` succeeds, leaves the input tree
untouched, leaves the generator counter untouched, and its output is the
generator-independent `formatPure`. -/
theorem formatBlock_stable (g : Nat → String) (postId : Option Nat)
    (b : Block) (c : Nat) (h : fmtStable postId b = true) :
    formatBlock g postId b c = .ok (formatPure postId b, b, c) := by
  cases b with
  | mk bn attrs inner ih ic =>
    cases inner with
    | none =>
      obtain ⟨hbn, hattrs⟩ := fmtStable_parts_none postId bn attrs ih ic h
      cases bn with
      | none => simp [strFalsy] at hbn
      | some s =>
        have hs : (s == "") = false := by simpa [strFalsy] using hbn
        cases attrs with
        | none => simp [fmtAttrsOk] at hattrs
        | some av =>
          have hav : truthy av = true := (fmtAttrsOk_parts postId av hattrs).1
          obtain ⟨s0, hb, hfid⟩ := formatIdUpdate_stable g postId av c hattrs
          simp [formatBlock, hs, hav, hfid, formatPure, bind, Except.bind, pure,
            Except.pure, Functor.map, Except.map, fmtAttrsWrite]
    | some si =>
      cases si with
      | inr t =>
        obtain ⟨hbn, hattrs, ht⟩ := fmtStable_parts_inr postId bn attrs t ih ic h
        subst ht
        cases bn with
        | none => simp [strFalsy] at hbn
        | some s =>
          have hs : (s == "") = false := by simpa [strFalsy] using hbn
          cases attrs with
          | none => simp [fmtAttrsOk] at hattrs
          | some av =>
            have hav : truthy av = true := (fmtAttrsOk_parts postId av hattrs).1
            obtain ⟨s0, hb, hfid⟩ := formatIdUpdate_stable g postId av c hattrs
            simp [formatBlock, hs, hav, hfid, formatPure, bind, Except.bind, pure,
              Except.pure, Functor.map, Except.map, fmtAttrsWrite]
      | inl cs =>
        obtain ⟨hbn, hattrs, hcs⟩ := fmtStable_parts_inl postId bn attrs cs ih ic h
        have hrec := formatChildren_stable g postId cs c hcs
        cases bn with
        | none => simp [strFalsy] at hbn
        | some s =>
          have hs : (s == "") = false := by simpa [strFalsy] using hbn
          cases attrs with
          | none => simp [fmtAttrsOk] at hattrs
          | some av =>
            have hav : truthy av = true := (fmtAttrsOk_parts postId av hattrs).1
            obtain ⟨s0, hb, hfid⟩ := formatIdUpdate_stable g postId av c hattrs
            simp [formatBlock, hs, hav, hfid, hrec, formatPure, bind, Except.bind,
              pure, Except.pure, Functor.map, Except.map, fmtAttrsWrite]
termination_by sizeOf b

theorem formatChildren_stable (g : Nat → String) (postId : Option Nat)
    (cs : List Block) (c : Nat) (h : fmtStableList postId cs = true) :
    formatChildren g postId cs c = .ok (formatPureList postId cs, cs, c) := by
  cases cs with
  | nil => simp [formatChildren, formatPureList]
  | cons b bs =>
    have hparts : fmtStable postId b = true ∧ fmtStableList postId bs = true := by
      simpa [fmtStableList, Bool.and_eq_true] using h
    have h1 := formatBlock_stable g postId b c hparts.1
    have h2 := formatChildren_stable g postId bs c hparts.2
    simp [formatChildren, h1, h2, formatPureList, bind, Except.bind, pure,
      Except.pure, Functor.map, Except.map]
termination_by sizeOf cs

end

/-- C6, counterexample.  `formatBlock` mutates its input: on a block whose
identifier has no suffix, the call with `postId = 5` writes
`"ab12_5"` into the input's `attrs.block_id`, so the post-call input tree
differs from the tree that was passed in. -/
theorem c6_format_mutates_counterexample :
    formatBlock (fun _ => "ffff") (some 5) cexFmt6 0
      = .ok (.mk "tpgb/tp-heading" (.vobj [("block_id", .vstr "ab12_5")]) [] "x"
               [some "x"],
             .mk (some "tpgb/tp-heading")
               (some (.vobj [("block_id", .vstr "ab12_5")])) none (some "x")
               (some [some "x"]),
             0) ∧
    (Block.mk (some "tpgb/tp-heading")
        (some (.vobj [("block_id", .vstr "ab12_5")])) none (some "x")
        (some [some "x"])) ≠ cexFmt6 := by
  refine ⟨rfl, ?_⟩
  intro h
  have h2 := congrArg Block.attrs h
  simp [cexFmt6, Block.attrs] at h2

/-- C6, amended.  The formatter does not mutate its input and is
deterministic on format-stable trees: when every block has a truthy
`blockName`, a truthy `attrs` whose `block_id` is a nonempty string
containing `'_'` whenever `postId` is truthy, and array-or-absent
`innerBlocks` of recursively format-stable children, `formatBlock` returns
the input unchanged, ignores the random generator and its counter, and two
calls with different generators and counters produce the same output
(`formatPure`).  Outside that set it writes into the input's `attrs`: a
falsy identifier is replaced by a freshly generated one, and a truthy
underscore-free string gets `_postId` appended in place (see the
counterexample). -/
theorem c6_format_pure_on_stable (b : Block) (postId : Option Nat)
    (g g' : Nat → String) (c c' : Nat) (h : fmtStable postId b = true) :
    formatBlock g postId b c = .ok (formatPure postId b, b, c) ∧
    formatBlock g' postId b c' = .ok (formatPure postId b, b, c') :=
  ⟨formatBlock_stable g postId b c h, formatBlock_stable g' postId b c' h⟩

/-- Witness for C6's amended theorem on a suffixed-identifier block. -/
theorem c6_format_pure_on_stable_witness :
    formatBlock (fun _ => "eeee") (some 5)
        (.mk (some "tpgb/tp-heading")
          (some (.vobj [("block_id", .vstr "ab12_5")])) none (some "x")
          (some [some "x"])) 0
      = .ok (formatPure (some 5)
          (.mk (some "tpgb/tp-heading")
            (some (.vobj [("block_id", .vstr "ab12_5")])) none (some "x")
            (some [some "x"])),
          .mk (some "tpgb/tp-heading")
            (some (.vobj [("block_id", .vstr "ab12_5")])) none (some "x")
            (some [some "x"]), 0) :=
  (c6_format_pure_on_stable
    (.mk (some "tpgb/tp-heading")
      (some (.vobj [("block_id", .vstr "ab12_5")])) none (some "x")
      (some [some "x"])) (some 5) (fun _ => "eeee") (fun _ => "dddd") 0 7
    (by decide)).1

/-- C3.  The staged merge does not deep-merge `attributes`: requesting
`["core"]` yields `{a}`, but requesting `["core","styling"]` yields `{b}`
alone — the shallow `merged = {...merged, ...levelData}` spread, executed
after the dedicated attributes merge, wholesale-replaces the `attributes`
map with the styling level's, losing `a`.  The result is not a superset of
the `["core"]` result, contradicting the claim (and the source's own
"Merge attributes from each level" intent, whose computation it makes dead
code). -/
theorem c3_staged_merge_drops_attributes :
    olookA (loadStagedSchema [] false c3files [.core]) "attributes"
      = some (.vobj [("a", .vnum 1)]) ∧
    olookA (loadStagedSchema [] false c3files [.core, .styling]) "attributes"
      = some (.vobj [("b", .vnum 2)]) ∧
    olookA ((olookA (loadStagedSchema [] false c3files [.core, .styling])
        "attributes").getD (.vobj [])) "a" = none := by
  refine ⟨rfl, rfl, rfl⟩

/-- C8.  Reference resolution terminates on every input — `resolveRef` is a
total function of the fuel `11 - depth`, so Lean accepts it without any
partiality — the depth guard returns the value unresolved beyond depth 10,
and on the 15-deep pointer cycle the resolution stops inside the bound and
returns an unresolved pointer object instead of failing. -/
theorem c8_resolve_ref_bounded (defs : List (String × AVal)) (v : AVal) (d : Nat)
    (hd : 10 < d) :
    resolveRef defs v d = v ∧
    resolveRef cycleDefs15 (.vobj [("$ref", .vstr "definitions://d0")]) 0
      = .vobj [("$ref", .vstr "definitions://d11")] := by
  constructor
  · have h0 : 11 - d = 0 := by omega
    rw [resolveRef, h0]
    rfl
  · rfl

/-- Witness for C8 at depth 11. -/
theorem c8_resolve_ref_bounded_witness :
    resolveRef [] .vnull 11 = .vnull :=
  (c8_resolve_ref_bounded [] .vnull 11 (by decide)).1
